import Mathlib

/-!
Verification development for the easy-ff scene/clip timeline and FFmpeg
command-generation engine.

The JavaScript source is shallowly embedded as follows:
* JS numbers are modelled as exact rationals (`ℚ`); `NaN` (the result of
  parsing a non-numeric string) is modelled by `Option ℚ` with `none`.
  Binary floating-point artifacts are outside the model.
* DOM input fields are modelled by their parsed numeric content
  (`Option ℚ`) for the timeline operations, and by their raw text
  (`String`) where the code interpolates the raw text into a command.
* Thrown JS exceptions are modelled with `Except String`.
-/

attribute [local semireducible] Rat.add Rat.sub Rat.mul Rat.inv Rat.ofScientific

namespace Utils

/-- Whitespace recognised by JS `String.prototype.trim`. -/
def isWsJS (c : Char) : Bool :=
  c = ' ' ∨ c = '\t' ∨ c = '\n' ∨ c = '\r'

/-- JS `trim` on a list of characters. -/
def trimJS (l : List Char) : List Char :=
  ((l.dropWhile isWsJS).reverse.dropWhile isWsJS).reverse

/-- JS `String.prototype.split` with a single-character separator. -/
def splitOnCh (sep : Char) : List Char → List (List Char)
  | [] => [[]]
  | c :: rest =>
    match splitOnCh sep rest with
    | [] => [[]]
    | h :: t => if c = sep then [] :: h :: t else (c :: h) :: t

/-- Numeric value of a list of decimal digits. -/
def natOfDigits (l : List Char) : ℕ :=
  l.foldl (fun a c => a * 10 + (c.toNat - '0'.toNat)) 0

/-- Digit-prefix part of JS `parseInt` (radix 10): longest leading run of
digits, `none` when there is none. -/
def parseIntDigits (l : List Char) : Option ℤ :=
  let d := l.takeWhile Char.isDigit
  if d.isEmpty then none else some (natOfDigits d : ℤ)

/-- JS `parseInt(s)` (radix 10, no hex): trim, optional sign, longest digit
prefix; `none` models `NaN`. -/
def parseIntJS (l : List Char) : Option ℤ :=
  match trimJS l with
  | '+' :: r => parseIntDigits r
  | '-' :: r => (parseIntDigits r).map Neg.neg
  | t => parseIntDigits t

/-- Exponent tail of a JS numeric literal (after the `e`/`E`): optional sign
and a non-empty digit run consuming the whole remainder. -/
def parseExpTail (l : List Char) : Option ℤ :=
  match l with
  | '+' :: r => if r ≠ [] ∧ r.all Char.isDigit then some (natOfDigits r : ℤ) else none
  | '-' :: r => if r ≠ [] ∧ r.all Char.isDigit then some (-(natOfDigits r : ℤ)) else none
  | r => if r ≠ [] ∧ r.all Char.isDigit then some (natOfDigits r : ℤ) else none

/-- Unsigned core of a JS decimal literal `digits[.digits][(e|E)exp]`,
requiring the whole remainder to be consumed; `none` models `NaN`. -/
def parseDecCore (l : List Char) : Option ℚ :=
  let ip := l.takeWhile Char.isDigit
  let r₁ := l.dropWhile Char.isDigit
  let withExp : ℚ → List Char → Option ℚ := fun v rest =>
    match rest with
    | [] => some v
    | 'e' :: r => (parseExpTail r).map (fun k => v * (10 : ℚ) ^ k)
    | 'E' :: r => (parseExpTail r).map (fun k => v * (10 : ℚ) ^ k)
    | _ => none
  match r₁ with
  | '.' :: r₂ =>
    let fp := r₂.takeWhile Char.isDigit
    let r₃ := r₂.dropWhile Char.isDigit
    if ip.isEmpty ∧ fp.isEmpty then none
    else withExp ((natOfDigits ip : ℚ) + (natOfDigits fp : ℚ) / (10 : ℚ) ^ fp.length) r₃
  | _ => if ip.isEmpty then none else withExp (natOfDigits ip : ℚ) r₁

/-- ECMAScript `ToNumber` applied to a string (decimal forms only): trimmed
empty string is `0`, otherwise an optionally signed decimal literal; `none`
models `NaN`. -/
def toNumberJS (l : List Char) : Option ℚ :=
  match trimJS l with
  | [] => some 0
  | '+' :: r => parseDecCore r
  | '-' :: r => (parseDecCore r).map Neg.neg
  | t => parseDecCore t

/-- JS `Math.round`: round half towards positive infinity. -/
def jsRound (q : ℚ) : ℤ := ⌊q + 1 / 2⌋

/-- Rounding to two decimals as the input validator does it:
`Math.round(num * 100) / 100`. -/
def roundTo2 (q : ℚ) : ℚ := (jsRound (q * 100) : ℚ) / 100

/-- Numeric value of JS `x.toFixed(2)`: per the ECMAScript spec the sign is
split off first, then the magnitude is rounded half away from zero at two
decimals. -/
def toFixed2 (q : ℚ) : ℚ :=
  if q < 0 then -((⌊-q * 100 + 1 / 2⌋ : ℚ) / 100) else (⌊q * 100 + 1 / 2⌋ : ℚ) / 100

/-- Left-pads a string with zeros to the given length. -/
def padZeros (k : ℕ) (s : String) : String :=
  String.mk (List.replicate (k - s.length) '0') ++ s

/-- Rendering of `x.toFixed(2)` for a non-negative number. -/
def toFixed2StrNN (q : ℚ) : String :=
  let n := (⌊q * 100 + 1 / 2⌋).toNat
  toString (n / 100) ++ "." ++ padZeros 2 (toString (n % 100))

/-- Rendering of JS `x.toFixed(2)` as a string. -/
def toFixed2Str (q : ℚ) : String :=
  if q < 0 then "-" ++ toFixed2StrNN (-q) else toFixed2StrNN q

/-- Decimal rendering of a non-negative rational with a finite decimal
expansion, matching JS number-to-string output on such values. Values
without a finite decimal expansion (which a JS float never is exactly) get
a fallback fraction rendering. -/
def q2sNN (q : ℚ) : String :=
  match (List.range 31).find? (fun k => (q * (10 : ℚ) ^ k).den = 1) with
  | some 0 => toString q.num
  | some (k + 1) =>
    let n := (q * (10 : ℚ) ^ (k + 1)).num.toNat
    toString (n / 10 ^ (k + 1)) ++ "." ++ padZeros (k + 1) (toString (n % 10 ^ (k + 1)))
  | none => toString q.num ++ "/" ++ toString q.den

/-- JS number-to-string conversion (finite-decimal fragment). -/
def jsNumToStr (q : ℚ) : String :=
  if q < 0 then "-" ++ q2sNN (-q) else q2sNN q

/-- JS rendering of a possibly-NaN number. -/
def jsNumToStrO (o : Option ℚ) : String :=
  match o with
  | none => "NaN"
  | some q => jsNumToStr q

/-- Rendering of `x.toFixed(2)` for a possibly-NaN number. -/
def toFixed2StrO (o : Option ℚ) : String :=
  match o with
  | none => "NaN"
  | some q => toFixed2Str q

/-- Embedding of `validateNumericInput(value, min = 0, max = Infinity)` from
utils.js: empty/null/undefined/non-numeric input yields `min`, numeric input
is clamped as `Math.max(min, Math.min(max, num))`; `hi = none` models the
default `Infinity` bound. -/
def validateNumericInput (v : Option ℚ) (lo : ℚ) (hi : Option ℚ) : ℚ :=
  match v with
  | none => lo
  | some q =>
    match hi with
    | none => max lo q
    | some h => max lo (min h q)

/-- Shorthand for `validateNumericInput(value)` with its default bounds. -/
def vni (v : Option ℚ) : ℚ := validateNumericInput v 0 none

/-- Character class kept by `sanitizeFilename`. -/
def isFilenameSafe (c : Char) : Bool :=
  (('a' ≤ c ∧ c ≤ 'z') ∨ ('A' ≤ c ∧ c ≤ 'Z') ∨ ('0' ≤ c ∧ c ≤ '9') ∨ c = '_' ∨ c = '-')

/-- Embedding of `sanitizeFilename` from utils.js: every character outside
`[a-zA-Z0-9_-]` is replaced by an underscore. -/
def sanitizeFilename (s : String) : String :=
  String.mk (s.data.map (fun c => if isFilenameSafe c then c else '_'))

/-- Embedding of `parseDimensions` from utils.js. -/
def parseDimensions (s : String) : Except String (ℤ × ℤ) :=
  if s = "" then .error "Dimensions are required"
  else
    match splitOnCh 'x' s.data with
    | [p₁, p₂] =>
      match parseIntJS p₁, parseIntJS p₂ with
      | some w, some h =>
        if w ≤ 0 ∨ h ≤ 0 then .error "Dimensions must be positive numbers"
        else if w > 7680 ∨ h > 4320 then .error "Dimensions too large (maximum 7680x4320)"
        else .ok (w, h)
      | _, _ => .error "Dimensions must be positive numbers"
    | _ => .error "Dimensions must be in format \"WIDTHxHEIGHT\" (e.g., \"1920x1080\")"

end Utils

namespace InputValidator

/-- Embedding of the `number` validator from input-validator.js (with
`allowEmpty = false`, as every scene field uses it): `none` rejects
empty/non-numeric input, then the raw value is range-checked against the
optional `min`/`max` bounds, then rounded to `decimals` places with
`Math.round`. A `none` result models `{valid: false}`; `some r` models
`{valid: true, value: r}`. -/
def validateNumber (v : Option ℚ) (lo hi : Option ℚ) (decimals : Option ℕ) : Option ℚ :=
  match v with
  | none => none
  | some q =>
    if (match lo with | some l => decide (q < l) | none => false) then none
    else if (match hi with | some h => decide (q > h) | none => false) then none
    else
      match decimals with
      | some d => some ((Utils.jsRound (q * (10 : ℚ) ^ d) : ℚ) / (10 : ℚ) ^ d)
      | none => some q

/-- Embedding of the `time` validator: a number with `min 0`, two decimals,
and the default `maxDuration = Infinity` (so no upper check). -/
def timeVal (v : Option ℚ) : Option ℚ :=
  validateNumber v (some 0) none (some 2)

/-- Embedding of the `duration` validator: a number with `min 0.01`, two
decimals, then the default `maxDuration = 3600` check on the rounded
value. -/
def durationVal (v : Option ℚ) : Option ℚ :=
  match validateNumber v (some (1 / 100)) none (some 2) with
  | none => none
  | some r => if r > 3600 then none else some r

/-- Effect of `updateInputVisualState` on a field's value: a valid result is
written back into the field, an invalid one leaves the field text alone. -/
def writeBack (cur res : Option ℚ) : Option ℚ :=
  match res with
  | some r => some r
  | none => cur

end InputValidator

namespace SceneManager

/-- A scene row, modelled by the parsed numeric content of its input fields
(`none` = empty or non-numeric text), its checkbox and its dropdown.
`clipStartRO` models the `readOnly` flag of the Clip Start field. -/
structure Scene where
  start : Option ℚ
  endT : Option ℚ
  length : Option ℚ
  clipStart : Option ℚ
  clipStartRO : Bool
  hCrop : Option ℚ
  pan : Bool
  hCropEnd : Option ℚ
  panMethod : String
  deriving DecidableEq, Repr

/-- Loop body of `recalcClipStarts`: walking the scenes in order with the
running `cumulative` sum, each scene's Clip Start field is set to
`cumulative.toFixed(2)` and its read-only flag to `idx === 0`, and the
scene's validated `length` is added to `cumulative`. -/
def recalcAux (cumulative : ℚ) (idx : ℕ) : List Scene → List Scene
  | [] => []
  | sc :: rest =>
    let duration := Utils.vni sc.length
    let sc' := { sc with clipStart := some (Utils.toFixed2 cumulative), clipStartRO := idx = 0 }
    sc' :: recalcAux (cumulative + duration) (idx + 1) rest

/-- Embedding of `SceneManager.recalcClipStarts` from command-generator.js. -/
def recalcClipStarts (scenes : List Scene) : List Scene :=
  recalcAux 0 0 scenes

/-- Embedding of `SceneManager.handleClipStartEdit`: the edited value (held
in scene `i`'s `clipStart` field) resizes the immediately preceding scene,
then clip starts are recomputed; `idx <= 0` returns without change. -/
def handleClipStartEdit (scenes : List Scene) (i : ℕ) : List Scene :=
  if h : i = 0 ∨ scenes.length ≤ i then scenes
  else
    let cur := scenes.get ⟨i, by omega⟩
    let prev := scenes.get ⟨i - 1, by omega⟩
    let currentClipStart := Utils.vni cur.clipStart
    let prevClipStart := Utils.vni prev.clipStart
    let newPrevDuration := max 0 (currentClipStart - prevClipStart)
    let prevStart := Utils.vni prev.start
    let prev' := { prev with
      length := some (Utils.toFixed2 newPrevDuration)
      endT := some (Utils.toFixed2 (prevStart + newPrevDuration)) }
    recalcClipStarts (scenes.set (i - 1) prev')

/-- Embedding of the `updateFromStart` listener: validating `start` and
`end` (which writes the rounded values back), then, when both are valid,
`length = Math.max(0, end - start)` is written as `toFixed(2)` and
re-validated as a duration. -/
def updateFromStart (sc : Scene) : Scene :=
  let startResult := InputValidator.timeVal sc.start
  let endResult := InputValidator.timeVal sc.endT
  let sc₁ := { sc with
    start := InputValidator.writeBack sc.start startResult
    endT := InputValidator.writeBack sc.endT endResult }
  match startResult, endResult with
  | some s, some e =>
    let newLength := max 0 (e - s)
    let written := some (Utils.toFixed2 newLength)
    { sc₁ with length := InputValidator.writeBack written (InputValidator.durationVal written) }
  | _, _ => sc₁

/-- Embedding of the `updateFromEnd` listener (its body is identical to
`updateFromStart` in the source). -/
def updateFromEnd (sc : Scene) : Scene :=
  let startResult := InputValidator.timeVal sc.start
  let endResult := InputValidator.timeVal sc.endT
  let sc₁ := { sc with
    start := InputValidator.writeBack sc.start startResult
    endT := InputValidator.writeBack sc.endT endResult }
  match startResult, endResult with
  | some s, some e =>
    let newLength := max 0 (e - s)
    let written := some (Utils.toFixed2 newLength)
    { sc₁ with length := InputValidator.writeBack written (InputValidator.durationVal written) }
  | _, _ => sc₁

/-- Embedding of the `updateFromLength` listener: validating `start` and
`length`, then, when both are valid, `end = start + length` is written as
`toFixed(2)` and re-validated as a time. -/
def updateFromLength (sc : Scene) : Scene :=
  let startResult := InputValidator.timeVal sc.start
  let lengthResult := InputValidator.durationVal sc.length
  let sc₁ := { sc with
    start := InputValidator.writeBack sc.start startResult
    length := InputValidator.writeBack sc.length lengthResult }
  match startResult, lengthResult with
  | some s, some l =>
    let newEnd := s + l
    let written := some (Utils.toFixed2 newEnd)
    { sc₁ with endT := InputValidator.writeBack written (InputValidator.timeVal written) }
  | _, _ => sc₁

/-- The `DEFAULTS.CONTINUITY_EPSILON` constant. -/
def CONTINUITY_EPSILON : ℚ := 5 / 100

/-- Embedding of the per-scene body of `SceneManager.validateContinuity`
run by `validateAllTabs` over all clips: the returned value is the warning
message attached to scene `i` of clip `c` (`none` when the scene is not
flagged). -/
def continuityWarning (clips : List (List Scene)) (c i : ℕ) : Option String :=
  match (clips.get? c).bind (fun scs => scs.get? i) with
  | none => none
  | some sc =>
    let startVal := Utils.vni sc.start
    if i = 0 then
      if c = 0 then none
      else
        match (clips.get? (c - 1)).bind (fun p => p.getLast?) with
        | none => none
        | some lastSc =>
          let prevEnd := Utils.vni lastSc.endT
          let gap := |startVal - prevEnd|
          if gap > CONTINUITY_EPSILON then
            some ("Gap from previous clip: " ++ Utils.toFixed2Str gap ++ "s (expected " ++
              Utils.toFixed2Str prevEnd ++ "s)")
          else none
    else
      match (clips.get? c).bind (fun scs => scs.get? (i - 1)) with
      | none => none
      | some prevSc =>
        let prevEnd := Utils.vni prevSc.endT
        let gap := |startVal - prevEnd|
        if gap > CONTINUITY_EPSILON then
          some ("Gap from previous scene: " ++ Utils.toFixed2Str gap ++ "s (expected " ++
            Utils.toFixed2Str prevEnd ++ "s)")
        else none

end SceneManager

namespace CommandGenerator

/-- A scene row as the command generator reads it: the raw text of the
input fields (interpolated verbatim into the command), plus checkbox and
dropdown state. -/
structure SceneForm where
  start : String
  endT : String
  hCrop : String
  pan : Bool
  hCropEnd : String
  panMethod : String
  deriving DecidableEq, Repr

/-- The `duration` string `(e - s).toFixed(2)`: the two field texts are
coerced to numbers by the subtraction; any NaN operand renders as "NaN". -/
def durStr (sc : SceneForm) : String :=
  match Utils.toNumberJS sc.endT.data, Utils.toNumberJS sc.start.data with
  | some e, some s => Utils.toFixed2Str (e - s)
  | _, _ => "NaN"

/-- The static crop-x expression template `(in_w-${cropW})*${cropPct}`. -/
def staticXExpr (cropW : ℚ) (pctVal : Option ℚ) : String :=
  "(in_w-" ++ Utils.jsNumToStr cropW ++ ")*" ++ Utils.jsNumToStrO pctVal

/-- The crop-x expression generated for one scene in
`CommandGenerator.updateCommand` (the same construction is duplicated in
`copySceneCommand`): constant for non-pan scenes, and otherwise a `linear`
or cosine-eased interpolation in the per-segment time variable `t`. -/
def xExprOf (cropW : ℚ) (sc : SceneForm) : String :=
  let cropPct := (Utils.toNumberJS sc.hCrop.data).map (fun q => q / 100)
  if !sc.pan then staticXExpr cropW cropPct
  else
    let cropPctEnd := (Utils.toNumberJS sc.hCropEnd.data).map (fun q => q / 100)
    let startX := staticXExpr cropW cropPct
    let endX := staticXExpr cropW cropPctEnd
    let d := durStr sc
    if sc.panMethod = "linear" then
      startX ++ "+(" ++ endX ++ "-(" ++ startX ++ "))*(t/" ++ d ++ ")"
    else
      startX ++ "+(" ++ endX ++ "-(" ++ startX ++ "))*(1-cos(PI*t/" ++ d ++ "))/2"

/-- The `ratio = Math.min(inH/outH, inW/outW)` computation. -/
def cropScale (inW inH outW outH : ℚ) : ℚ :=
  min (inH / outH) (inW / outW)

/-- The crop window width `ratio * outW`. -/
def cropWOf (inW inH outW outH : ℚ) : ℚ :=
  cropScale inW inH outW outH * outW

/-- The crop window height `ratio * outH`. -/
def cropHOf (inW inH outW outH : ℚ) : ℚ :=
  cropScale inW inH outW outH * outH

/-- The per-scene video filter unit of `updateCommand`. -/
def videoUnit (cropW cropH : ℚ) (outW outH : ℤ) (idx : ℕ) (sc : SceneForm) : String :=
  "[0:v]trim=start=" ++ sc.start ++ ":end=" ++ sc.endT ++
    ",setpts=PTS-STARTPTS,crop=" ++ Utils.jsNumToStr cropW ++ ":" ++ Utils.jsNumToStr cropH ++
    ":" ++ xExprOf cropW sc ++ ":0,scale=" ++ toString outW ++ ":" ++ toString outH ++
    "[v" ++ toString idx ++ "]; "

/-- The per-scene audio filter unit of `updateCommand`. -/
def audioUnit (idx : ℕ) (sc : SceneForm) : String :=
  "[0:a]atrim=start=" ++ sc.start ++ ":end=" ++ sc.endT ++
    ",asetpts=PTS-STARTPTS[a" ++ toString idx ++ "]; "

/-- One label pair appended to `concatStr` per scene. -/
def concatPiece (idx : ℕ) : String :=
  "[v" ++ toString idx ++ "][a" ++ toString idx ++ "]"

/-- Embedding of `CommandGenerator.updateCommand` from
command-generator.js: the text written into the output box of the clip.
`parseDimensions` exceptions propagate. The clip name falls back to
`output` when empty, exactly as `?.textContent || 'output'` does. -/
def updateCommand (inputName inDim outDim clipName : String) (scenes : List SceneForm) :
    Except String String := do
  let (inW, inH) ← Utils.parseDimensions inDim
  let (outW, outH) ← Utils.parseDimensions outDim
  let cropH := cropHOf (inW : ℚ) (inH : ℚ) (outW : ℚ) (outH : ℚ)
  let cropW := cropWOf (inW : ℚ) (inH : ℚ) (outW : ℚ) (outH : ℚ)
  let filters := scenes.enum.foldl
    (fun acc p => acc ++ videoUnit cropW cropH outW outH p.1 p.2 ++ audioUnit p.1 p.2) ""
  let concatStr := scenes.enum.foldl (fun acc p => acc ++ concatPiece p.1) ""
  if scenes.length > 0 then
    let nm := if clipName = "" then "output" else clipName
    let safeClipName := Utils.sanitizeFilename nm
    .ok ("ffmpeg -i " ++ inputName ++ " -filter_complex \\\n\"" ++ filters ++ concatStr ++
      "concat=n=" ++ toString scenes.length ++ ":v=1:a=1[v][a]\" \\\n-map \"[v]\" -map \"[a]\"" ++
      " -c:v libx264 -c:a aac " ++ safeClipName ++ ".mp4")
  else
    .ok "Add a scene to generate command..."

/-- Pan scene fixture with `hCrop=20`, `hCropEnd=80`, duration 4.00,
linear method. -/
def panLinScene : SceneForm :=
  { start := "1", endT := "5", hCrop := "20", pan := true, hCropEnd := "80",
    panMethod := "linear" }

/-- Same fixture with the zoom-like-ease method. -/
def panZoomScene : SceneForm :=
  { start := "1", endT := "5", hCrop := "20", pan := true, hCropEnd := "80",
    panMethod := "zoom" }

/-- Same fixture with panning off. -/
def noPanScene : SceneForm :=
  { start := "1", endT := "5", hCrop := "20", pan := false, hCropEnd := "80",
    panMethod := "linear" }

end CommandGenerator

/-- A value read from a DOM field or a parsed JSON field, as the strict
validators see it: absent/empty (`''`, `null`, `undefined`), present but
not a number (`parseFloat` gives `NaN`), or a number. -/
inductive JsInput where
  | missing : JsInput
  | nonNumeric : JsInput
  | num (q : ℚ) : JsInput
  deriving DecidableEq, Repr

namespace ErrorHandler

/-- Embedding of `ErrorHandler.validateNumericInput` from error-handler.js:
the throwing validator used by project save/load. `hi = none` models the
default `max = Infinity`. -/
def validateNumericInput (value : JsInput) (fieldName : String) (lo : ℚ) (hi : Option ℚ)
    (allowNegative allowZero : Bool) : Except String ℚ :=
  match value with
  | .missing => .error (fieldName ++ " is required")
  | .nonNumeric => .error (fieldName ++ " must be a valid number")
  | .num q =>
    if !allowNegative ∧ q < 0 then .error (fieldName ++ " cannot be negative")
    else if !allowZero ∧ q = 0 then .error (fieldName ++ " cannot be zero")
    else if q < lo then .error (fieldName ++ " must be at least " ++ Utils.jsNumToStr lo)
    else if (match hi with | some h => decide (q > h) | none => false) then
      .error (fieldName ++ " cannot exceed " ++ Utils.jsNumToStr ((hi.getD 0)))
    else .ok q

/-- Embedding of `ErrorHandler.validateDimensions` from error-handler.js. -/
def validateDimensions (s : String) : Except String (ℤ × ℤ) :=
  if s = "" then .error "Dimensions are required"
  else
    match Utils.splitOnCh 'x' s.data with
    | [p₁, p₂] =>
      match Utils.parseIntJS p₁, Utils.parseIntJS p₂ with
      | some w, some h =>
        if w ≤ 0 ∨ h ≤ 0 then .error "Dimensions must be positive numbers"
        else if w > 7680 ∨ h > 4320 then .error "Dimensions too large (maximum 7680x4320)"
        else .ok (w, h)
      | _, _ => .error "Dimensions must be valid numbers"
    | _ => .error "Dimensions must be in format \"WIDTHxHEIGHT\" (e.g., \"1920x1080\")"

end ErrorHandler

namespace ProjectManager

/-- A scene's persisted fields as read from the DOM (for save) or from the
parsed project JSON (for load). -/
structure RawScene where
  start : JsInput
  endT : JsInput
  hCrop : JsInput
  pan : Bool
  hCropEnd : JsInput
  panMethod : String
  deriving DecidableEq, Repr

/-- A scene that passed the save validation. -/
structure SavedScene where
  start : ℚ
  endT : ℚ
  hCrop : ℚ
  pan : Bool
  hCropEnd : ℚ
  panMethod : String
  deriving DecidableEq, Repr

/-- The validated project data that `saveProject` serialises to JSON; an
`.ok` result models a produced file, an `.error` result models the aborted
save. -/
structure SaveData where
  inputName : String
  inDim : String
  outDim : String
  clips : List (String × List SavedScene)
  deriving DecidableEq, Repr

/-- Validation of one scene inside `saveProject`'s `scenes.forEach`,
including the `catch` that rethrows with the owning clip's name. -/
def validateSceneForSave (clipName : String) (sc : RawScene) : Except String SavedScene :=
  let inner : Except String SavedScene :=
    match ErrorHandler.validateNumericInput sc.start "Start time" 0 none false true with
    | .error m => .error m
    | .ok s =>
      match ErrorHandler.validateNumericInput sc.endT "End time" 0 none false true with
      | .error m => .error m
      | .ok e =>
        match ErrorHandler.validateNumericInput sc.hCrop "Horizontal crop" 0 (some 100)
            false true with
        | .error m => .error m
        | .ok hc =>
          match ErrorHandler.validateNumericInput sc.hCropEnd "End horizontal crop" 0 (some 100)
              false true with
          | .error m => .error m
          | .ok hce =>
            if e ≤ s then
              .error ("Invalid scene: end time (" ++ Utils.jsNumToStr e ++
                ") must be greater than start time (" ++ Utils.jsNumToStr s ++ ")")
            else
              .ok { start := s, endT := e, hCrop := hc, pan := sc.pan, hCropEnd := hce,
                    panMethod := sc.panMethod }
  match inner with
  | .ok v => .ok v
  | .error m => .error ("Error in clip \"" ++ clipName ++ "\": " ++ m)

/-- Validation of a clip's scene list inside `saveProject`; the first
failure aborts. -/
def validateScenesForSave (clipName : String) : List RawScene → Except String (List SavedScene)
  | [] => .ok []
  | sc :: rest =>
    match validateSceneForSave clipName sc with
    | .error m => .error m
    | .ok v =>
      match validateScenesForSave clipName rest with
      | .error m => .error m
      | .ok vs => .ok (v :: vs)

/-- Validation of all clips inside `saveProject`. -/
def validateClipsForSave :
    List (String × List RawScene) → Except String (List (String × List SavedScene))
  | [] => .ok []
  | (nm, scs) :: rest =>
    match validateScenesForSave nm scs with
    | .error m => .error m
    | .ok vs =>
      if vs.isEmpty then .error ("Clip \"" ++ nm ++ "\" has no scenes")
      else
        match validateClipsForSave rest with
        | .error m => .error m
        | .ok others => .ok ((nm, vs) :: others)

/-- Embedding of the validation core of `ProjectManager.saveProject` from
project-manager.js: an `.error` is the thrown message (surfaced as
`Failed to save project: ...`) and means no file is written; an `.ok`
carries the data that is serialised. -/
def saveProject (inputName inDim outDim : String) (clips : List (String × List RawScene)) :
    Except String SaveData :=
  if Utils.trimJS inputName.data = [] then .error "Input filename is required"
  else
    match ErrorHandler.validateDimensions inDim with
    | .error m => .error ("Invalid dimensions: " ++ m)
    | .ok _ =>
      match ErrorHandler.validateDimensions outDim with
      | .error m => .error ("Invalid dimensions: " ++ m)
      | .ok _ =>
        if clips.isEmpty then .error "No clips to save"
        else
          match validateClipsForSave clips with
          | .error m => .error m
          | .ok cs =>
            .ok { inputName := inputName, inDim := inDim, outDim := outDim, clips := cs }

/-- A clip entry of a parsed project JSON file; `scenes = none` models a
missing or non-array `scenes` property. -/
structure RawClip where
  name : Option String
  scenes : Option (List RawScene)
  deriving DecidableEq, Repr

/-- A parsed project JSON document (`none` fields are absent). -/
structure RawProject where
  inputName : Option String
  inDim : Option String
  outDim : Option String
  clips : Option (List RawClip)
  deriving DecidableEq, Repr

/-- The state that loading mutates: the three global settings fields and
the clip tabs with their scenes. -/
structure AppState where
  inputName : String
  inDim : String
  outDim : String
  clips : List (String × List RawScene)
  deriving DecidableEq, Repr

/-- JS `a || d` for a possibly-absent string: absent and empty both fall
back to the default. -/
def jsStrOr (o : Option String) (d : String) : String :=
  match o with
  | none => d
  | some s => if s = "" then d else s

/-- Validation of one clip's scenes inside `processProjectFile`, wrapping
failures as `Scene <i+1> in clip "<name>": <msg>`. -/
def validateLoadScenes (nm : String) (si : ℕ) : List RawScene → Except String Unit
  | [] => .ok ()
  | sc :: rest =>
    let inner : Except String Unit :=
      match ErrorHandler.validateNumericInput sc.start "Start time" 0 none false true with
      | .error m => .error m
      | .ok s =>
        match ErrorHandler.validateNumericInput sc.endT "End time" 0 none false true with
        | .error m => .error m
        | .ok e =>
          match ErrorHandler.validateNumericInput sc.hCrop "Horizontal crop" 0 (some 100)
              false true with
          | .error m => .error m
          | .ok _ =>
            match ErrorHandler.validateNumericInput sc.hCropEnd "End horizontal crop" 0
                (some 100) false true with
            | .error m => .error m
            | .ok _ =>
              if e ≤ s then .error "End time must be greater than start time" else .ok ()
    match inner with
    | .error m => .error ("Scene " ++ toString (si + 1) ++ " in clip \"" ++ nm ++ "\": " ++ m)
    | .ok _ => validateLoadScenes nm (si + 1) rest

/-- Validation of the clips array inside `processProjectFile`. -/
def validateLoadClips (ci : ℕ) : List RawClip → Except String Unit
  | [] => .ok ()
  | c :: rest =>
    let nm := (c.name).getD ""
    if nm = "" then .error ("Clip " ++ toString (ci + 1) ++ " has invalid name")
    else
      match c.scenes with
      | none => .error ("Clip \"" ++ nm ++ "\" has invalid scenes data")
      | some scs =>
        if scs.isEmpty then .error ("Clip \"" ++ nm ++ "\" has no scenes")
        else
          match validateLoadScenes nm 0 scs with
          | .error m => .error m
          | .ok _ => validateLoadClips (ci + 1) rest

/-- Embedding of `ProjectManager.processProjectFile` from
project-manager.js (after a successful JSON parse): returns the new
application state and the surfaced error, if any. The global settings are
written (after the dimensions check) before the clips array is validated,
and the tabs are rebuilt via `loadTabsFromData` only after every clip and
scene has validated. -/
def processProjectFile (st : AppState) (d : RawProject) : AppState × Option String :=
  let inputName := jsStrOr d.inputName "input.mkv"
  let inDim := jsStrOr d.inDim "1280x640"
  let outDim := jsStrOr d.outDim "720x1280"
  match ErrorHandler.validateDimensions inDim with
  | .error m => (st, some ("Failed to load project: Invalid dimensions in project file: " ++ m))
  | .ok _ =>
    match ErrorHandler.validateDimensions outDim with
    | .error m => (st, some ("Failed to load project: Invalid dimensions in project file: " ++ m))
    | .ok _ =>
      let st₁ := { st with inputName := inputName, inDim := inDim, outDim := outDim }
      match d.clips with
      | none => (st₁, some "Failed to load project: Project file must contain a clips array")
      | some clipList =>
        if clipList.isEmpty then (st₁, some "Failed to load project: Project file contains no clips")
        else
          match validateLoadClips 0 clipList with
          | .error m => (st₁, some ("Failed to load project: " ++ m))
          | .ok _ =>
            let loaded := clipList.enum.map fun p =>
              (jsStrOr p.2.name ("Clip " ++ toString (p.1 + 1)), (p.2.scenes).getD [])
            ({ st₁ with clips := loaded }, none)

/-- A well-formed raw scene (start 0, end 5). -/
def okScene : RawScene :=
  { start := .num 0, endT := .num 5, hCrop := .num 50, pan := false, hCropEnd := .num 50,
    panMethod := "linear" }

/-- A raw scene with `end <= start` (start 5, end 3). -/
def badScene : RawScene :=
  { start := .num 5, endT := .num 3, hCrop := .num 50, pan := false, hCropEnd := .num 50,
    panMethod := "linear" }

/-- Application state before a load. -/
def c8state : AppState :=
  { inputName := "old.mkv", inDim := "1280x640", outDim := "720x1280",
    clips := [("Old", [okScene])] }

/-- A project file with valid dimensions but an invalid scene. -/
def c8raw : RawProject :=
  { inputName := some "new.mkv", inDim := some "1920x1080", outDim := some "720x1280",
    clips := some [{ name := some "Intro", scenes := some [badScene] }] }

/-- Clip list (as read from the DOM) whose only scene is invalid. -/
def c8saveClips : List (String × List RawScene) := [("Intro", [badScene])]

end ProjectManager

namespace PanExpr

/-- Denotation of the emitted linear pan expression
`startX+(endX-(startX))*(t/duration)` as a function of the per-segment
time `t`, with `a = startX`, `b = endX`, `d = duration`. -/
noncomputable def linX (a b d t : ℝ) : ℝ := a + (b - a) * (t / d)

/-- Denotation of the emitted zoom-like-ease pan expression
`startX+(endX-(startX))*(1-cos(PI*t/duration))/2`. -/
noncomputable def easeX (a b d t : ℝ) : ℝ :=
  a + (b - a) * ((1 - Real.cos (Real.pi * t / d)) / 2)

/-- Denotation of the emitted static crop-x expression
`(in_w-cropW)*(hCrop/100)`. -/
noncomputable def staticXVal (inw cw hc : ℝ) : ℝ := (inw - cw) * (hc / 100)

end PanExpr

namespace SceneManager

/-- The validated length of one scene, as `recalcClipStarts` reads it. -/
def vniLen (sc : Scene) : ℚ := Utils.vni sc.length

/-- Sum of the validated lengths of the first `i` scenes: the exact value
of `cumulative` when `recalcClipStarts` reaches index `i`. -/
def sumVniLen (l : List Scene) (i : ℕ) : ℚ := ((l.take i).map vniLen).sum

/-- The gap value that `validateContinuity` compares against the epsilon
for scene `i` of clip `c` (`none` when the code performs no comparison
there: first scene of the first clip, first scene after an empty clip, or
out-of-range indices). -/
def sceneGap (clips : List (List Scene)) (c i : ℕ) : Option ℚ :=
  match (clips.get? c).bind (fun scs => scs.get? i) with
  | none => none
  | some sc =>
    if i = 0 then
      if c = 0 then none
      else
        match (clips.get? (c - 1)).bind (fun p => p.getLast?) with
        | none => none
        | some lastSc => some |Utils.vni sc.start - Utils.vni lastSc.endT|
    else
      match (clips.get? c).bind (fun scs => scs.get? (i - 1)) with
      | none => none
      | some prevSc => some |Utils.vni sc.start - Utils.vni prevSc.endT|

/-- The program's pipeline for an edit of a scene's Length field: the field
takes the typed value, the `updateFromLength` listener runs (validation,
write-backs and the end-field sync), and `recalcClipStarts` recomputes
every Clip Start in the clip from the length fields. -/
def editLengthField (scenes : List Scene) (i : ℕ) (v : Option ℚ) : List Scene :=
  match scenes.get? i with
  | none => scenes
  | some sc =>
    let sc₂ := updateFromLength { sc with length := v }
    recalcClipStarts (scenes.set i sc₂)

/-- Scene fixture for witnesses: timing fields as given, crop fields at
their defaults. -/
def fixtureScene (s e l : Option ℚ) : Scene :=
  { start := s, endT := e, length := l, clipStart := some 0, clipStartRO := false,
    hCrop := some 50, pan := false, hCropEnd := some 50, panMethod := "linear" }

/-- Single clip with `end[0] = 5.00` and `start[1] = 5.03`. -/
def c5clipsNoGap : List (List Scene) :=
  [[fixtureScene (some 0) (some 5) (some 5),
    fixtureScene (some (503 / 100)) (some 8) (some (297 / 100))]]

/-- Single clip with `end[0] = 5.00` and `start[1] = 5.10`. -/
def c5clipsGap : List (List Scene) :=
  [[fixtureScene (some 0) (some 5) (some 5),
    fixtureScene (some (51 / 10)) (some 8) (some (29 / 10))]]

/-- Consistent two-scene clip (lengths 5.00 and 3.00, clip starts 0.00 and
5.00) in which the first scene's Length field is about to be edited. -/
def c9before : List Scene :=
  [{ fixtureScene (some 0) (some 5) (some 5) with clipStart := some 0, clipStartRO := true },
   { fixtureScene (some 5) (some 8) (some 3) with clipStart := some 5 }]

/-- Concrete two-scene clip used by witnesses. -/
def witScenes : List Scene :=
  [{ start := some 0, endT := some 5, length := some 5, clipStart := some 0,
     clipStartRO := true, hCrop := some 50, pan := false, hCropEnd := some 50,
     panMethod := "linear" },
   { start := some 5, endT := some 8, length := some 3, clipStart := some 5,
     clipStartRO := false, hCrop := some 20, pan := true, hCropEnd := some 80,
     panMethod := "linear" }]

end SceneManager

theorem sumVniLen_zero (l : List SceneManager.Scene) : SceneManager.sumVniLen l 0 = 0 := rfl

theorem sumVniLen_cons_succ (sc : SceneManager.Scene) (l : List SceneManager.Scene) (i : ℕ) :
    SceneManager.sumVniLen (sc :: l) (i + 1) =
      SceneManager.vniLen sc + SceneManager.sumVniLen l i := by
  simp [SceneManager.sumVniLen]

theorem recalcAux_length (l : List SceneManager.Scene) (c : ℚ) (k : ℕ) :
    (SceneManager.recalcAux c k l).length = l.length := by
  induction l generalizing c k with
  | nil => rfl
  | cons sc rest ih => simp [SceneManager.recalcAux, ih]

theorem recalcClipStarts_length (l : List SceneManager.Scene) :
    (SceneManager.recalcClipStarts l).length = l.length :=
  recalcAux_length l 0 0

theorem recalcAux_get (l : List SceneManager.Scene) (c : ℚ) (k i : ℕ) (h : i < l.length) :
    (SceneManager.recalcAux c k l).get ⟨i, by rw [recalcAux_length]; exact h⟩ =
      { l.get ⟨i, h⟩ with
        clipStart := some (Utils.toFixed2 (c + SceneManager.sumVniLen l i))
        clipStartRO := decide (k + i = 0) } := by
  induction l generalizing c k i with
  | nil => exact absurd h (by simp)
  | cons sc rest ih =>
    cases i with
    | zero =>
      simp [SceneManager.recalcAux, SceneManager.sumVniLen]
    | succ j =>
      have hj : j < rest.length := by simpa using Nat.lt_of_succ_lt_succ h
      have := ih (c + Utils.vni sc.length) (k + 1) j hj
      simp only [SceneManager.recalcAux, List.get_cons_succ, SceneManager.vniLen] at this ⊢
      rw [this, sumVniLen_cons_succ]
      have h1 : c + Utils.vni sc.length + SceneManager.sumVniLen rest j =
          c + (SceneManager.vniLen sc + SceneManager.sumVniLen rest j) := by
        simp [SceneManager.vniLen]; ring
      have h2 : k + 1 + j = k + (j + 1) := by omega
      rw [h1, h2]

theorem recalcClipStarts_get (l : List SceneManager.Scene) (i : ℕ) (h : i < l.length) :
    (SceneManager.recalcClipStarts l).get ⟨i, by rw [recalcClipStarts_length]; exact h⟩ =
      { l.get ⟨i, h⟩ with
        clipStart := some (Utils.toFixed2 (SceneManager.sumVniLen l i))
        clipStartRO := decide (i = 0) } := by
  have := recalcAux_get l 0 0 i h
  simpa [SceneManager.recalcClipStarts] using this

theorem toFixed2_hundredths (n : ℕ) : Utils.toFixed2 ((n : ℚ) / 100) = (n : ℚ) / 100 := by
  unfold Utils.toFixed2
  rw [if_neg (not_lt.mpr (by positivity))]
  have h1 : (n : ℚ) / 100 * 100 = ((n : ℤ) : ℚ) := by
    push_cast
    field_simp
  rw [h1]
  have h2 : ((n : ℤ) : ℚ) + 1 / 2 = ((n : ℤ) : ℚ) + 1 / 2 := rfl
  rw [show (⌊((n : ℤ) : ℚ) + 1 / 2⌋ : ℤ) = (n : ℤ) + ⌊(1 / 2 : ℚ)⌋ from Int.floor_int_add _ _]
  rw [show (⌊(1 / 2 : ℚ)⌋ : ℤ) = 0 by decide]
  push_cast
  ring

theorem vni_hundredths (n : ℕ) : Utils.vni (some ((n : ℚ) / 100)) = (n : ℚ) / 100 := by
  simp only [Utils.vni, Utils.validateNumericInput]
  exact max_eq_right (by positivity)

theorem sumVniLen_hundredths (l : List SceneManager.Scene)
    (h : ∀ sc ∈ l, ∃ n : ℕ, sc.length = some ((n : ℚ) / 100)) (i : ℕ) :
    ∃ N : ℕ, SceneManager.sumVniLen l i = (N : ℚ) / 100 := by
  induction l generalizing i with
  | nil => exact ⟨0, by simp [SceneManager.sumVniLen]⟩
  | cons sc rest ih =>
    cases i with
    | zero => exact ⟨0, by simp [SceneManager.sumVniLen]⟩
    | succ j =>
      obtain ⟨n, hn⟩ := h sc (by simp)
      obtain ⟨N, hN⟩ := ih (fun s hs => h s (by simp [hs])) j
      refine ⟨n + N, ?_⟩
      rw [sumVniLen_cons_succ, hN, SceneManager.vniLen, hn, vni_hundredths]
      push_cast
      ring

theorem sumVniLen_succ_get (l : List SceneManager.Scene) (i : ℕ) (h : i < l.length) :
    SceneManager.sumVniLen l (i + 1) =
      SceneManager.sumVniLen l i + SceneManager.vniLen (l.get ⟨i, h⟩) := by
  induction l generalizing i with
  | nil => exact absurd h (by simp)
  | cons sc rest ih =>
    cases i with
    | zero => simp [SceneManager.sumVniLen]
    | succ j =>
      have hj : j < rest.length := by simpa using Nat.lt_of_succ_lt_succ h
      rw [sumVniLen_cons_succ, sumVniLen_cons_succ, ih j hj, List.get_cons_succ]
      ring

/-- C1: after any scene addition, removal, reorder, timing edit or
clipStart edit the program re-runs `recalcClipStarts`, whose output always
satisfies: the first scene's `clipStart` is `0` and is marked read-only,
and each later scene's `clipStart` equals the previous scene's `clipStart`
plus the previous scene's `length`. The scenes' length fields are assumed
to hold the non-negative two-decimal values the program itself maintains
(every write of a length goes through `toFixed(2)`/the two-decimals
validator). -/
theorem claim_C1_clipStart_running_sum (scenes : List SceneManager.Scene)
    (h : ∀ sc ∈ scenes, ∃ n : ℕ, sc.length = some ((n : ℚ) / 100)) :
    (∀ h0 : 0 < (SceneManager.recalcClipStarts scenes).length,
      ((SceneManager.recalcClipStarts scenes).get ⟨0, h0⟩).clipStart = some 0 ∧
      ((SceneManager.recalcClipStarts scenes).get ⟨0, h0⟩).clipStartRO = true) ∧
    (∀ i (hi : i + 1 < (SceneManager.recalcClipStarts scenes).length),
      ∃ c c' d : ℚ,
        ((SceneManager.recalcClipStarts scenes).get ⟨i, by omega⟩).clipStart = some c ∧
        ((SceneManager.recalcClipStarts scenes).get ⟨i + 1, hi⟩).clipStart = some c' ∧
        ((SceneManager.recalcClipStarts scenes).get ⟨i, by omega⟩).length = some d ∧
        c' = c + d) := by
  constructor
  · intro h0
    have hl : 0 < scenes.length := by rwa [recalcClipStarts_length] at h0
    rw [recalcClipStarts_get scenes 0 hl]
    constructor
    · simp [sumVniLen_zero]
      decide
    · simp
  · intro i hi
    have hl : i + 1 < scenes.length := by rwa [recalcClipStarts_length] at hi
    have hi0 : i < scenes.length := by omega
    obtain ⟨n, hn⟩ := h (scenes.get ⟨i, hi0⟩) (scenes.get_mem _ _)
    obtain ⟨N, hN⟩ := sumVniLen_hundredths scenes h i
    refine ⟨(N : ℚ) / 100, (N : ℚ) / 100 + (n : ℚ) / 100, (n : ℚ) / 100, ?_, ?_, ?_, rfl⟩
    · rw [recalcClipStarts_get scenes i hi0]
      simp [hN, toFixed2_hundredths]
    · rw [recalcClipStarts_get scenes (i + 1) hl]
      simp only []
      rw [sumVniLen_succ_get scenes i hi0, hN, SceneManager.vniLen, hn, vni_hundredths]
      have : (N : ℚ) / 100 + (n : ℚ) / 100 = ((N + n : ℕ) : ℚ) / 100 := by push_cast; ring
      rw [this, toFixed2_hundredths]
    · rw [recalcClipStarts_get scenes i hi0]
      simpa using hn

/-- Witness for C1 at a concrete two-scene clip with lengths 5.00 and
3.00. -/
theorem claim_C1_witness :
    ((SceneManager.recalcClipStarts SceneManager.witScenes).get ⟨0, by decide⟩).clipStart = some 0 ∧
    ((SceneManager.recalcClipStarts SceneManager.witScenes).get ⟨0, by decide⟩).clipStartRO = true ∧
    ∃ c c' d : ℚ,
      ((SceneManager.recalcClipStarts SceneManager.witScenes).get ⟨0, by decide⟩).clipStart = some c ∧
      ((SceneManager.recalcClipStarts SceneManager.witScenes).get ⟨1, by decide⟩).clipStart = some c' ∧
      ((SceneManager.recalcClipStarts SceneManager.witScenes).get ⟨0, by decide⟩).length = some d ∧
      c' = c + d := by
  have h := claim_C1_clipStart_running_sum SceneManager.witScenes (by
    intro sc hsc
    simp only [SceneManager.witScenes, List.mem_cons, List.not_mem_nil, or_false] at hsc
    rcases hsc with rfl | rfl
    · exact ⟨500, by decide⟩
    · exact ⟨300, by decide⟩)
  refine ⟨(h.1 (by decide)).1, (h.1 (by decide)).2, ?_⟩
  exact h.2 0 (by decide)

/-- C2: the crop window computed by `updateCommand` uses
`ratio = min(inH/outH, inW/outW)`, fits inside the input frame in both
axes, and has exactly the output aspect ratio; in particular for
1920x1080 input and 720x1280 output the ratio is 0.84375, the crop width
607.5 and the crop height 1080. -/
theorem claim_C2_crop_geometry :
    (∀ inW inH outW outH : ℚ, 0 < inW → 0 < inH → 0 < outW → 0 < outH →
      CommandGenerator.cropWOf inW inH outW outH ≤ inW ∧
      CommandGenerator.cropHOf inW inH outW outH ≤ inH ∧
      CommandGenerator.cropWOf inW inH outW outH / CommandGenerator.cropHOf inW inH outW outH =
        outW / outH) ∧
    Utils.parseDimensions "1920x1080" = .ok (1920, 1080) ∧
    Utils.parseDimensions "720x1280" = .ok (720, 1280) ∧
    CommandGenerator.cropScale 1920 1080 720 1280 = 27 / 32 ∧
    CommandGenerator.cropWOf 1920 1080 720 1280 = 1215 / 2 ∧
    CommandGenerator.cropHOf 1920 1080 720 1280 = 1080 := by
  refine ⟨?_, rfl, rfl, by decide, by decide, by decide⟩
  intro inW inH outW outH hiW hiH hoW hoH
  have hr : 0 < CommandGenerator.cropScale inW inH outW outH :=
    lt_min (div_pos hiH hoH) (div_pos hiW hoW)
  refine ⟨?_, ?_, ?_⟩
  · calc CommandGenerator.cropScale inW inH outW outH * outW
        ≤ inW / outW * outW :=
          mul_le_mul_of_nonneg_right (min_le_right _ _) hoW.le
      _ = inW := div_mul_cancel₀ _ (ne_of_gt hoW)
  · calc CommandGenerator.cropScale inW inH outW outH * outH
        ≤ inH / outH * outH :=
          mul_le_mul_of_nonneg_right (min_le_left _ _) hoH.le
      _ = inH := div_mul_cancel₀ _ (ne_of_gt hoH)
  · exact mul_div_mul_left _ _ (ne_of_gt hr)

/-- Witness for C2 at the concrete dimensions from the spec. -/
theorem claim_C2_witness :
    CommandGenerator.cropWOf 1920 1080 720 1280 ≤ 1920 ∧
    CommandGenerator.cropHOf 1920 1080 720 1280 ≤ 1080 ∧
    CommandGenerator.cropWOf 1920 1080 720 1280 / CommandGenerator.cropHOf 1920 1080 720 1280 =
      720 / 1280 :=
  claim_C2_crop_geometry.1 1920 1080 720 1280 (by decide) (by decide) (by decide) (by decide)

theorem vni_nonneg (v : Option ℚ) : 0 ≤ Utils.vni v := by
  cases v with
  | none => simp [Utils.vni, Utils.validateNumericInput]
  | some q => exact le_max_left _ _

theorem sumVniLen_nonneg (l : List SceneManager.Scene) (i : ℕ) :
    0 ≤ SceneManager.sumVniLen l i := by
  refine List.sum_nonneg ?_
  intro x hx
  simp only [List.mem_map] at hx
  obtain ⟨sc, _, rfl⟩ := hx
  exact vni_nonneg _

theorem toFixed2_nonneg (q : ℚ) (h : 0 ≤ q) : 0 ≤ Utils.toFixed2 q := by
  unfold Utils.toFixed2
  rw [if_neg (not_lt.mpr h)]
  have : (0 : ℤ) ≤ ⌊q * 100 + 1 / 2⌋ := Int.le_floor.mpr (by push_cast; positivity)
  positivity

/-- C10: the non-strict `validateNumericInput` helper is total (our
embedding is a total function; the JS body consists only of non-throwing
operations) and always yields a value within the requested bounds, with
empty/non-numeric input mapping to `min` (default 0) and numeric input
clamped; consequently every `clipStart` produced by `recalcClipStarts` and
every gap compared by `validateContinuity` is a well-defined non-negative
rational, whatever the scenes' field texts contain. -/
theorem claim_C10_validateNumericInput_safety :
    (∀ (v : Option ℚ) (lo hi : ℚ), lo ≤ hi →
      lo ≤ Utils.validateNumericInput v lo (some hi) ∧
      Utils.validateNumericInput v lo (some hi) ≤ hi) ∧
    (∀ (lo : ℚ) (hi : Option ℚ), Utils.validateNumericInput none lo hi = lo) ∧
    Utils.vni none = 0 ∧
    (∀ (q lo hi : ℚ), Utils.validateNumericInput (some q) lo (some hi) = max lo (min hi q)) ∧
    (∀ (q lo : ℚ), lo ≤ Utils.validateNumericInput (some q) lo none) ∧
    (∀ (scenes : List SceneManager.Scene) (i : ℕ)
        (h : i < (SceneManager.recalcClipStarts scenes).length),
      ∃ c : ℚ, ((SceneManager.recalcClipStarts scenes).get ⟨i, h⟩).clipStart = some c ∧ 0 ≤ c) ∧
    (∀ (clips : List (List SceneManager.Scene)) (c i : ℕ) (g : ℚ),
      SceneManager.sceneGap clips c i = some g → 0 ≤ g) := by
  refine ⟨?_, ?_, rfl, ?_, ?_, ?_, ?_⟩
  · intro v lo hi hle
    cases v with
    | none =>
      constructor
      · exact le_of_eq rfl
      · exact hle
    | some q =>
      constructor
      · exact le_max_left _ _
      · exact max_le hle (min_le_left _ _)
  · intro lo hi
    rfl
  · intro q lo hi
    rfl
  · intro q lo
    exact le_max_left _ _
  · intro scenes i h
    have hl : i < scenes.length := by rwa [recalcClipStarts_length] at h
    rw [recalcClipStarts_get scenes i hl]
    exact ⟨_, rfl, toFixed2_nonneg _ (sumVniLen_nonneg _ _)⟩
  · intro clips c i g h
    unfold SceneManager.sceneGap at h
    split at h
    · exact absurd h (by simp)
    · split at h
      · split at h
        · exact absurd h (by simp)
        · split at h
          · exact absurd h (by simp)
          · rw [Option.some_inj] at h
            rw [← h]
            exact abs_nonneg _
      · split at h
        · exact absurd h (by simp)
        · rw [Option.some_inj] at h
          rw [← h]
          exact abs_nonneg _

/-- Witness for C10: the bound-respecting clamp at a concrete call, a
clipStart produced from a clip whose length field is non-numeric, and a
concrete gap. -/
theorem claim_C10_witness :
    (0 ≤ Utils.validateNumericInput none 0 (some 100) ∧
     Utils.validateNumericInput none 0 (some 100) ≤ 100) ∧
    (∃ c : ℚ,
      ((SceneManager.recalcClipStarts (SceneManager.editLengthField SceneManager.c9before 0 none)).get
        ⟨1, by decide⟩).clipStart = some c ∧ 0 ≤ c) ∧
    (∀ g : ℚ, SceneManager.sceneGap SceneManager.c5clipsGap 0 1 = some g → 0 ≤ g) := by
  refine ⟨claim_C10_validateNumericInput_safety.1 none 0 100 (by decide), ?_, ?_⟩
  · exact claim_C10_validateNumericInput_safety.2.2.2.2.2.1 _ 1 (by decide)
  · intro g hg
    exact claim_C10_validateNumericInput_safety.2.2.2.2.2.2 _ 0 1 g hg

theorem vni_some_nonneg (q : ℚ) (h : 0 ≤ q) : Utils.vni (some q) = q :=
  max_eq_right h

/-- C5: a scene is flagged by continuity validation exactly when its gap
exceeds the 0.05s epsilon, where the gap is `|start[i] - end[i-1]|` inside
a clip, and `|start[0] - lastEnd(previous clip)|` for the first scene of a
non-first clip whose predecessor has scenes; the first clip's first scene
is never flagged; concretely, `end[0]=5.00, start[1]=5.03` is not flagged
while `start[1]=5.10` is flagged with gap 0.10. -/
theorem claim_C5_continuity_epsilon :
    (∀ (clips : List (List SceneManager.Scene)) (c i : ℕ),
      (SceneManager.continuityWarning clips c i).isSome = true ↔
        ∃ g, SceneManager.sceneGap clips c i = some g ∧ g > SceneManager.CONTINUITY_EPSILON) ∧
    (∀ (clips : List (List SceneManager.Scene)) (c i : ℕ) (scs : List SceneManager.Scene)
        (sc prevSc : SceneManager.Scene) (sv ev : ℚ),
      0 < i → clips[c]? = some scs → scs[i]? = some sc → scs[i - 1]? = some prevSc →
      sc.start = some sv → prevSc.endT = some ev → 0 ≤ sv → 0 ≤ ev →
      SceneManager.sceneGap clips c i = some |sv - ev|) ∧
    (∀ (clips : List (List SceneManager.Scene)) (c : ℕ) (scs prevScs : List SceneManager.Scene)
        (sc lastSc : SceneManager.Scene) (sv ev : ℚ),
      0 < c → clips[c]? = some scs → scs[0]? = some sc →
      clips[c - 1]? = some prevScs → prevScs.getLast? = some lastSc →
      sc.start = some sv → lastSc.endT = some ev → 0 ≤ sv → 0 ≤ ev →
      SceneManager.sceneGap clips c 0 = some |sv - ev|) ∧
    (∀ clips : List (List SceneManager.Scene), SceneManager.continuityWarning clips 0 0 = none) ∧
    SceneManager.continuityWarning SceneManager.c5clipsNoGap 0 1 = none ∧
    SceneManager.continuityWarning SceneManager.c5clipsGap 0 1 =
      some "Gap from previous scene: 0.10s (expected 5.00s)" ∧
    SceneManager.sceneGap SceneManager.c5clipsGap 0 1 = some (1 / 10) := by
  refine ⟨?_, ?_, ?_, ?_, by decide, by decide, by decide⟩
  · intro clips c i
    rcases hsc : clips[c]?.bind (fun scs => scs[i]?) with _ | sc
    · simp [SceneManager.continuityWarning, SceneManager.sceneGap, hsc]
    · by_cases hi : i = 0
      · subst hi
        by_cases hc : c = 0
        · subst hc
          simp [SceneManager.continuityWarning, SceneManager.sceneGap, hsc]
        · rcases hlast : clips[c - 1]?.bind (fun p => p.getLast?) with _ | lastSc
          · simp [SceneManager.continuityWarning, SceneManager.sceneGap, hsc, hc, hlast]
          · by_cases hg : |Utils.vni sc.start - Utils.vni lastSc.endT| >
                SceneManager.CONTINUITY_EPSILON
            · simp [SceneManager.continuityWarning, SceneManager.sceneGap, hsc, hc, hlast, hg]
            · simp [SceneManager.continuityWarning, SceneManager.sceneGap, hsc, hc, hlast, hg]
      · rcases hprev : clips[c]?.bind (fun scs => scs[i - 1]?) with _ | prevSc
        · simp [SceneManager.continuityWarning, SceneManager.sceneGap, hsc, hi, hprev]
        · by_cases hg : |Utils.vni sc.start - Utils.vni prevSc.endT| >
              SceneManager.CONTINUITY_EPSILON
          · simp [SceneManager.continuityWarning, SceneManager.sceneGap, hsc, hi, hprev, hg]
          · simp [SceneManager.continuityWarning, SceneManager.sceneGap, hsc, hi, hprev, hg]
  · intro clips c i scs sc prevSc sv ev hi hc hsc hprev hs he hsv hev
    have h1 : clips[c]?.bind (fun l => l[i]?) = some sc := by
      rw [hc]
      simpa using hsc
    have h2 : clips[c]?.bind (fun l => l[i - 1]?) = some prevSc := by
      rw [hc]
      simpa using hprev
    have hi0 : i ≠ 0 := Nat.pos_iff_ne_zero.mp hi
    simp [SceneManager.sceneGap, h1, h2, hi0, hs, he, vni_some_nonneg sv hsv,
      vni_some_nonneg ev hev]
  · intro clips c scs prevScs sc lastSc sv ev hc hgc hsc hgp hlast hs he hsv hev
    have h1 : clips[c]?.bind (fun l => l[0]?) = some sc := by
      rw [hgc]
      simpa using hsc
    have h2 : clips[c - 1]?.bind (fun p => p.getLast?) = some lastSc := by
      rw [hgp]
      simpa using hlast
    have hc0 : c ≠ 0 := Nat.pos_iff_ne_zero.mp hc
    simp [SceneManager.sceneGap, h1, h2, hc0, hs, he, vni_some_nonneg sv hsv,
      vni_some_nonneg ev hev]
  · intro clips
    rcases hsc : clips[0]?.bind (fun scs => scs[0]?) with _ | sc
    · simp [SceneManager.continuityWarning, hsc]
    · simp [SceneManager.continuityWarning, hsc]

/-- Witness for C5: the gap formula and the flag at the concrete clip with
`start[1] = 5.10`. -/
theorem claim_C5_witness :
    (SceneManager.continuityWarning SceneManager.c5clipsGap 0 1).isSome = true ∧
    SceneManager.sceneGap SceneManager.c5clipsGap 0 1 = some |51 / 10 - (5 : ℚ)| := by
  constructor
  · exact (claim_C5_continuity_epsilon.1 SceneManager.c5clipsGap 0 1).mpr
      ⟨1 / 10, by decide, by decide⟩
  · exact claim_C5_continuity_epsilon.2.1 SceneManager.c5clipsGap 0 1
      (SceneManager.c5clipsGap.get ⟨0, by decide⟩)
      (SceneManager.fixtureScene (some (51 / 10)) (some 8) (some (29 / 10)))
      (SceneManager.fixtureScene (some 0) (some 5) (some 5))
      (51 / 10) 5 (by decide) (by decide) (by decide) (by decide) (by decide) (by decide)
      (by decide) (by decide)

theorem jsRound_intCast (z : ℤ) : Utils.jsRound ((z : ℚ)) = z := by
  unfold Utils.jsRound
  rw [Int.floor_int_add]
  rw [show (⌊(1 / 2 : ℚ)⌋ : ℤ) = 0 by decide]
  ring

theorem roundTo2_hundredths (z : ℤ) : Utils.roundTo2 ((z : ℚ) / 100) = (z : ℚ) / 100 := by
  unfold Utils.roundTo2
  rw [div_mul_cancel₀ _ (by norm_num : (100 : ℚ) ≠ 0), jsRound_intCast]

theorem roundTo2_is_hundredth (q : ℚ) : ∃ z : ℤ, Utils.roundTo2 q = (z : ℚ) / 100 :=
  ⟨Utils.jsRound (q * 100), rfl⟩

theorem roundTo2_nonneg (q : ℚ) (h : 0 ≤ q) : 0 ≤ Utils.roundTo2 q := by
  unfold Utils.roundTo2 Utils.jsRound
  have : (0 : ℤ) ≤ ⌊q * 100 + 1 / 2⌋ := Int.le_floor.mpr (by push_cast; positivity)
  positivity

theorem toFixed2_int_hundredths (z : ℤ) (hz : 0 ≤ z) :
    Utils.toFixed2 ((z : ℚ) / 100) = (z : ℚ) / 100 := by
  unfold Utils.toFixed2
  rw [if_neg (not_lt.mpr (by positivity))]
  rw [div_mul_cancel₀ _ (by norm_num : (100 : ℚ) ≠ 0)]
  rw [show (⌊(z : ℚ) + 1 / 2⌋ : ℤ) = z + ⌊(1 / 2 : ℚ)⌋ from Int.floor_int_add _ _]
  rw [show (⌊(1 / 2 : ℚ)⌋ : ℤ) = 0 by decide]
  push_cast
  ring_nf

theorem timeVal_some (q : ℚ) (h : 0 ≤ q) :
    InputValidator.timeVal (some q) = some (Utils.roundTo2 q) := by
  simp only [InputValidator.timeVal, InputValidator.validateNumber]
  rw [if_neg (by simp [not_lt.mpr h])]
  rfl

theorem timeVal_neg (q : ℚ) (h : q < 0) : InputValidator.timeVal (some q) = none := by
  simp only [InputValidator.timeVal, InputValidator.validateNumber]
  rw [if_pos (by simp [h])]

theorem roundTo2_le_3600 (q : ℚ) (h : q ≤ 3600) : Utils.roundTo2 q ≤ 3600 := by
  unfold Utils.roundTo2 Utils.jsRound
  have h1 : (⌊q * 100 + 1 / 2⌋ : ℤ) ≤ 360000 := by
    have := Int.floor_le_floor (α := ℚ) (show q * 100 + 1 / 2 ≤ 360000 + 1 / 2 by linarith)
    rwa [show (⌊(360000 : ℚ) + 1 / 2⌋ : ℤ) = 360000 by decide] at this
  rw [div_le_iff (by norm_num : (0 : ℚ) < 100)]
  exact_mod_cast h1

theorem validateNumber_duration_ok (q : ℚ) (h1 : 1 / 100 ≤ q) :
    InputValidator.validateNumber (some q) (some (1 / 100)) none (some 2) =
      some (Utils.roundTo2 q) := by
  simp only [InputValidator.validateNumber]
  rw [if_neg (by simp only [decide_eq_true_eq, not_lt]; linarith)]
  rfl

theorem durationVal_some (q : ℚ) (h1 : 1 / 100 ≤ q) (h2 : q ≤ 3600) :
    InputValidator.durationVal (some q) = some (Utils.roundTo2 q) := by
  unfold InputValidator.durationVal
  rw [validateNumber_duration_ok q h1]
  simp only [gt_iff_lt]
  rw [if_neg (not_lt.mpr (roundTo2_le_3600 q h2))]

theorem writeBack_timeVal_hundredth (z : ℤ) (hz : 0 ≤ z) :
    InputValidator.writeBack (some ((z : ℚ) / 100))
      (InputValidator.timeVal (some ((z : ℚ) / 100))) = some ((z : ℚ) / 100) := by
  rw [timeVal_some _ (by positivity), roundTo2_hundredths]
  rfl

theorem writeBack_durationVal_hundredth (z : ℤ) (hz : 0 ≤ z) :
    InputValidator.writeBack (some ((z : ℚ) / 100))
      (InputValidator.durationVal (some ((z : ℚ) / 100))) = some ((z : ℚ) / 100) := by
  by_cases hlo : (z : ℚ) / 100 < 1 / 100
  · have : InputValidator.durationVal (some ((z : ℚ) / 100)) = none := by
      unfold InputValidator.durationVal
      simp only [InputValidator.validateNumber]
      rw [if_pos (by simp only [decide_eq_true_eq]; linarith)]
    rw [this]
    rfl
  · by_cases hhi : (z : ℚ) / 100 ≤ 3600
    · rw [durationVal_some _ (not_lt.mp hlo) hhi, roundTo2_hundredths]
      rfl
    · have : InputValidator.durationVal (some ((z : ℚ) / 100)) = none := by
        unfold InputValidator.durationVal
        rw [validateNumber_duration_ok _ (not_lt.mp hlo), roundTo2_hundredths]
        simp only [gt_iff_lt]
        rw [if_pos (not_le.mp hhi)]
      rw [this]
      rfl

theorem max0_div100 (x : ℤ) : max 0 ((x : ℚ) / 100) = ((max 0 x : ℤ) : ℚ) / 100 := by
  rcases le_total x 0 with h | h
  · have hx : (x : ℚ) ≤ 0 := by exact_mod_cast h
    have hq : (x : ℚ) / 100 ≤ 0 := by
      rw [show (0 : ℚ) = 0 / 100 by norm_num]
      exact (div_le_div_right (by norm_num)).mpr hx
    rw [max_eq_left hq, max_eq_left h]
    norm_num
  · have hx : (0 : ℚ) ≤ (x : ℚ) := by exact_mod_cast h
    rw [max_eq_right (by positivity), max_eq_right h]

theorem writeBack_some (cur : Option ℚ) (r : ℚ) :
    InputValidator.writeBack cur (some r) = some r := rfl

theorem roundTo2_is_hundredth_nonneg (q : ℚ) (h : 0 ≤ q) :
    ∃ z : ℤ, 0 ≤ z ∧ Utils.roundTo2 q = (z : ℚ) / 100 :=
  ⟨Utils.jsRound (q * 100), Int.le_floor.mpr (by push_cast; positivity), rfl⟩

theorem sub_hundredths (a b : ℤ) : (a : ℚ) / 100 - (b : ℚ) / 100 = ((a - b : ℤ) : ℚ) / 100 := by
  push_cast
  ring

theorem add_hundredths (a b : ℤ) : (a : ℚ) / 100 + (b : ℚ) / 100 = ((a + b : ℤ) : ℚ) / 100 := by
  push_cast
  ring

theorem updateFromStart_eq (sc : SceneManager.Scene) (s e : ℚ)
    (hs : sc.start = some s) (he : sc.endT = some e) (h0s : 0 ≤ s) (h0e : 0 ≤ e) :
    SceneManager.updateFromStart sc =
      { sc with
        start := some (Utils.roundTo2 s)
        endT := some (Utils.roundTo2 e)
        length := some (max 0 (Utils.roundTo2 e - Utils.roundTo2 s)) } := by
  obtain ⟨zs, hzs0, hzs⟩ := roundTo2_is_hundredth_nonneg s h0s
  obtain ⟨ze, hze0, hze⟩ := roundTo2_is_hundredth_nonneg e h0e
  have hmax : max 0 (Utils.roundTo2 e - Utils.roundTo2 s) = ((max 0 (ze - zs) : ℤ) : ℚ) / 100 := by
    rw [hzs, hze, sub_hundredths, max0_div100]
  have hnl : Utils.toFixed2 (max 0 (Utils.roundTo2 e - Utils.roundTo2 s)) =
      ((max 0 (ze - zs) : ℤ) : ℚ) / 100 := by
    rw [hmax]
    exact toFixed2_int_hundredths _ (le_max_left _ _)
  simp only [SceneManager.updateFromStart, hs, he, timeVal_some s h0s, timeVal_some e h0e,
    writeBack_some]
  rw [hnl, writeBack_durationVal_hundredth _ (le_max_left _ _), ← hmax]

theorem updateFromEnd_eq (sc : SceneManager.Scene) (s e : ℚ)
    (hs : sc.start = some s) (he : sc.endT = some e) (h0s : 0 ≤ s) (h0e : 0 ≤ e) :
    SceneManager.updateFromEnd sc =
      { sc with
        start := some (Utils.roundTo2 s)
        endT := some (Utils.roundTo2 e)
        length := some (max 0 (Utils.roundTo2 e - Utils.roundTo2 s)) } := by
  obtain ⟨zs, hzs0, hzs⟩ := roundTo2_is_hundredth_nonneg s h0s
  obtain ⟨ze, hze0, hze⟩ := roundTo2_is_hundredth_nonneg e h0e
  have hmax : max 0 (Utils.roundTo2 e - Utils.roundTo2 s) = ((max 0 (ze - zs) : ℤ) : ℚ) / 100 := by
    rw [hzs, hze, sub_hundredths, max0_div100]
  have hnl : Utils.toFixed2 (max 0 (Utils.roundTo2 e - Utils.roundTo2 s)) =
      ((max 0 (ze - zs) : ℤ) : ℚ) / 100 := by
    rw [hmax]
    exact toFixed2_int_hundredths _ (le_max_left _ _)
  simp only [SceneManager.updateFromEnd, hs, he, timeVal_some s h0s, timeVal_some e h0e,
    writeBack_some]
  rw [hnl, writeBack_durationVal_hundredth _ (le_max_left _ _), ← hmax]

theorem updateFromLength_eq (sc : SceneManager.Scene) (s l : ℚ)
    (hs : sc.start = some s) (hl : sc.length = some l) (h0s : 0 ≤ s)
    (hlo : 1 / 100 ≤ l) (hhi : l ≤ 3600) :
    SceneManager.updateFromLength sc =
      { sc with
        start := some (Utils.roundTo2 s)
        length := some (Utils.roundTo2 l)
        endT := some (Utils.roundTo2 s + Utils.roundTo2 l) } := by
  obtain ⟨zs, hzs0, hzs⟩ := roundTo2_is_hundredth_nonneg s h0s
  obtain ⟨zl, hzl0, hzl⟩ := roundTo2_is_hundredth_nonneg l (by linarith)
  have hsum : Utils.roundTo2 s + Utils.roundTo2 l = ((zs + zl : ℤ) : ℚ) / 100 := by
    rw [hzs, hzl, add_hundredths]
  have hne : Utils.toFixed2 (Utils.roundTo2 s + Utils.roundTo2 l) = ((zs + zl : ℤ) : ℚ) / 100 := by
    rw [hsum]
    exact toFixed2_int_hundredths _ (by omega)
  simp only [SceneManager.updateFromLength, hs, hl, timeVal_some s h0s,
    durationVal_some l hlo hhi, writeBack_some]
  rw [hne, writeBack_timeVal_hundredth _ (by omega), ← hsum]

theorem roundTo2_idem (q : ℚ) : Utils.roundTo2 (Utils.roundTo2 q) = Utils.roundTo2 q := by
  obtain ⟨z, hz⟩ := roundTo2_is_hundredth q
  rw [hz, roundTo2_hundredths]

/-- C7: after an accepted edit of `start` or `end` the scene's `length`
field equals `max(0, end - start)` at two decimals (with `start`/`end`
themselves normalised to two decimals by the validator's write-back);
after an accepted edit of `length` the `end` field equals
`start + length` at two decimals; and each of the three listeners is
idempotent. Accepted means the validators pass: times are numeric and
non-negative, and an edited length lies in the duration validator's
`[0.01, 3600]` range. -/
theorem claim_C7_field_sync_idempotent :
    (∀ (sc : SceneManager.Scene) (s e : ℚ), sc.start = some s → sc.endT = some e →
      0 ≤ s → 0 ≤ e →
      ∃ s' e' : ℚ,
        (SceneManager.updateFromStart sc).start = some s' ∧
        (SceneManager.updateFromStart sc).endT = some e' ∧
        (SceneManager.updateFromStart sc).length = some (Utils.toFixed2 (max 0 (e' - s'))) ∧
        SceneManager.updateFromStart (SceneManager.updateFromStart sc) =
          SceneManager.updateFromStart sc) ∧
    (∀ (sc : SceneManager.Scene) (s e : ℚ), sc.start = some s → sc.endT = some e →
      0 ≤ s → 0 ≤ e →
      ∃ s' e' : ℚ,
        (SceneManager.updateFromEnd sc).start = some s' ∧
        (SceneManager.updateFromEnd sc).endT = some e' ∧
        (SceneManager.updateFromEnd sc).length = some (Utils.toFixed2 (max 0 (e' - s'))) ∧
        SceneManager.updateFromEnd (SceneManager.updateFromEnd sc) =
          SceneManager.updateFromEnd sc) ∧
    (∀ (sc : SceneManager.Scene) (s l : ℚ), sc.start = some s → sc.length = some l →
      0 ≤ s → 1 / 100 ≤ l → l ≤ 3600 →
      ∃ s' l' : ℚ,
        (SceneManager.updateFromLength sc).start = some s' ∧
        (SceneManager.updateFromLength sc).length = some l' ∧
        (SceneManager.updateFromLength sc).endT = some (Utils.toFixed2 (s' + l')) ∧
        SceneManager.updateFromLength (SceneManager.updateFromLength sc) =
          SceneManager.updateFromLength sc) := by
  refine ⟨?_, ?_, ?_⟩
  · intro sc s e hs he h0s h0e
    have h1 := updateFromStart_eq sc s e hs he h0s h0e
    obtain ⟨zs, hzs0, hzs⟩ := roundTo2_is_hundredth_nonneg s h0s
    obtain ⟨ze, hze0, hze⟩ := roundTo2_is_hundredth_nonneg e h0e
    have hmax : Utils.toFixed2 (max 0 (Utils.roundTo2 e - Utils.roundTo2 s)) =
        max 0 (Utils.roundTo2 e - Utils.roundTo2 s) := by
      rw [hzs, hze, sub_hundredths, max0_div100]
      exact toFixed2_int_hundredths _ (le_max_left _ _)
    refine ⟨Utils.roundTo2 s, Utils.roundTo2 e, ?_, ?_, ?_, ?_⟩
    · rw [h1]
    · rw [h1]
    · rw [h1, hmax]
    · have h2 := updateFromStart_eq (SceneManager.updateFromStart sc)
        (Utils.roundTo2 s) (Utils.roundTo2 e) (by rw [h1]) (by rw [h1])
        (roundTo2_nonneg s h0s) (roundTo2_nonneg e h0e)
      rw [h2, h1]
      simp [roundTo2_idem]
  · intro sc s e hs he h0s h0e
    have h1 := updateFromEnd_eq sc s e hs he h0s h0e
    obtain ⟨zs, hzs0, hzs⟩ := roundTo2_is_hundredth_nonneg s h0s
    obtain ⟨ze, hze0, hze⟩ := roundTo2_is_hundredth_nonneg e h0e
    have hmax : Utils.toFixed2 (max 0 (Utils.roundTo2 e - Utils.roundTo2 s)) =
        max 0 (Utils.roundTo2 e - Utils.roundTo2 s) := by
      rw [hzs, hze, sub_hundredths, max0_div100]
      exact toFixed2_int_hundredths _ (le_max_left _ _)
    refine ⟨Utils.roundTo2 s, Utils.roundTo2 e, ?_, ?_, ?_, ?_⟩
    · rw [h1]
    · rw [h1]
    · rw [h1, hmax]
    · have h2 := updateFromEnd_eq (SceneManager.updateFromEnd sc)
        (Utils.roundTo2 s) (Utils.roundTo2 e) (by rw [h1]) (by rw [h1])
        (roundTo2_nonneg s h0s) (roundTo2_nonneg e h0e)
      rw [h2, h1]
      simp [roundTo2_idem]
  · intro sc s l hs hl h0s hlo hhi
    have h1 := updateFromLength_eq sc s l hs hl h0s hlo hhi
    obtain ⟨zs, hzs0, hzs⟩ := roundTo2_is_hundredth_nonneg s h0s
    obtain ⟨zl, hzl0, hzl⟩ := roundTo2_is_hundredth_nonneg l (by linarith)
    have hsum : Utils.toFixed2 (Utils.roundTo2 s + Utils.roundTo2 l) =
        Utils.roundTo2 s + Utils.roundTo2 l := by
      rw [hzs, hzl, add_hundredths]
      exact toFixed2_int_hundredths _ (by omega)
    refine ⟨Utils.roundTo2 s, Utils.roundTo2 l, ?_, ?_, ?_, ?_⟩
    · rw [h1]
    · rw [h1]
    · rw [h1, hsum]
    · have hfl : (1 : ℤ) ≤ ⌊l * 100 + 1 / 2⌋ := Int.le_floor.mpr (by push_cast; linarith)
      have hlo2 : 1 / 100 ≤ Utils.roundTo2 l := by
        unfold Utils.roundTo2 Utils.jsRound
        exact (div_le_div_right (by norm_num : (0 : ℚ) < 100)).mpr (by exact_mod_cast hfl)
      have hhi2 : Utils.roundTo2 l ≤ 3600 := roundTo2_le_3600 l hhi
      have h2 := updateFromLength_eq (SceneManager.updateFromLength sc)
        (Utils.roundTo2 s) (Utils.roundTo2 l) (by rw [h1]) (by rw [h1])
        (roundTo2_nonneg s h0s) hlo2 hhi2
      rw [h2, h1]
      simp [roundTo2_idem]

/-- Witness for C7 at a concrete scene with start 1, end 3.5, length 2.5. -/
theorem claim_C7_witness :
    (∃ s' e' : ℚ,
      (SceneManager.updateFromStart
        (SceneManager.fixtureScene (some 1) (some (7 / 2)) (some (5 / 2)))).start = some s' ∧
      (SceneManager.updateFromStart
        (SceneManager.fixtureScene (some 1) (some (7 / 2)) (some (5 / 2)))).endT = some e' ∧
      (SceneManager.updateFromStart
        (SceneManager.fixtureScene (some 1) (some (7 / 2)) (some (5 / 2)))).length =
        some (Utils.toFixed2 (max 0 (e' - s'))) ∧
      SceneManager.updateFromStart (SceneManager.updateFromStart
        (SceneManager.fixtureScene (some 1) (some (7 / 2)) (some (5 / 2)))) =
        SceneManager.updateFromStart
          (SceneManager.fixtureScene (some 1) (some (7 / 2)) (some (5 / 2)))) ∧
    (∃ s' l' : ℚ,
      (SceneManager.updateFromLength
        (SceneManager.fixtureScene (some 1) (some (7 / 2)) (some (5 / 2)))).start = some s' ∧
      (SceneManager.updateFromLength
        (SceneManager.fixtureScene (some 1) (some (7 / 2)) (some (5 / 2)))).length = some l' ∧
      (SceneManager.updateFromLength
        (SceneManager.fixtureScene (some 1) (some (7 / 2)) (some (5 / 2)))).endT =
        some (Utils.toFixed2 (s' + l')) ∧
      SceneManager.updateFromLength (SceneManager.updateFromLength
        (SceneManager.fixtureScene (some 1) (some (7 / 2)) (some (5 / 2)))) =
        SceneManager.updateFromLength
          (SceneManager.fixtureScene (some 1) (some (7 / 2)) (some (5 / 2)))) :=
  ⟨claim_C7_field_sync_idempotent.1
      (SceneManager.fixtureScene (some 1) (some (7 / 2)) (some (5 / 2))) 1 (7 / 2)
      rfl rfl (by decide) (by decide),
   claim_C7_field_sync_idempotent.2.2
      (SceneManager.fixtureScene (some 1) (some (7 / 2)) (some (5 / 2))) 1 (5 / 2)
      rfl rfl (by decide) (by decide) (by decide)⟩

theorem getElem_eq_of_getElemQ {l : List SceneManager.Scene} {i : ℕ} {sc : SceneManager.Scene}
    (h : l[i]? = some sc) (hlen : i < l.length) : l.get ⟨i, hlen⟩ = sc := by
  have := List.getElem?_eq_getElem hlen
  rw [h] at this
  exact (Option.some_inj.mp this).symm

/-- C4: editing a non-first scene's Clip Start to `v` resizes only the
immediately preceding scene: its `length` becomes `max(0, v - clipStart[i-1])`
and its `end` becomes `start[i-1]` plus that length, its `start` is
untouched, every non-clipStart field of the edited scene is untouched, and
the result is exactly `recalcClipStarts` of that one-scene update; editing
the first scene's Clip Start changes nothing. Field values are the
non-negative two-decimal numbers the program maintains. -/
theorem claim_C4_clipStart_edit :
    (∀ scenes : List SceneManager.Scene, SceneManager.handleClipStartEdit scenes 0 = scenes) ∧
    (∀ (scenes : List SceneManager.Scene) (i : ℕ) (zv zc zs : ℕ)
        (sc prev : SceneManager.Scene),
      0 < i → i < scenes.length →
      scenes[i]? = some sc → scenes[i - 1]? = some prev →
      sc.clipStart = some ((zv : ℚ) / 100) → prev.clipStart = some ((zc : ℚ) / 100) →
      prev.start = some ((zs : ℚ) / 100) →
      (SceneManager.handleClipStartEdit scenes i =
        SceneManager.recalcClipStarts (scenes.set (i - 1)
          { prev with
            length := some (max 0 ((zv : ℚ) / 100 - (zc : ℚ) / 100))
            endT := some ((zs : ℚ) / 100 + max 0 ((zv : ℚ) / 100 - (zc : ℚ) / 100)) })) ∧
      (∃ pr, (SceneManager.handleClipStartEdit scenes i)[i - 1]? = some pr ∧
        pr.length = some (max 0 ((zv : ℚ) / 100 - (zc : ℚ) / 100)) ∧
        pr.endT = some ((zs : ℚ) / 100 + max 0 ((zv : ℚ) / 100 - (zc : ℚ) / 100)) ∧
        pr.start = prev.start) ∧
      (∃ cur, (SceneManager.handleClipStartEdit scenes i)[i]? = some cur ∧
        cur.start = sc.start ∧ cur.endT = sc.endT ∧ cur.length = sc.length ∧
        cur.hCrop = sc.hCrop ∧ cur.pan = sc.pan ∧ cur.hCropEnd = sc.hCropEnd ∧
        cur.panMethod = sc.panMethod)) := by
  constructor
  · intro scenes
    unfold SceneManager.handleClipStartEdit
    rw [dif_pos (Or.inl rfl)]
  · intro scenes i zv zc zs sc prev hi hlen hsc hprev hscs hpcs hpst
    have hne : ¬(i = 0 ∨ scenes.length ≤ i) := by omega
    have hget : scenes.get ⟨i, hlen⟩ = sc := getElem_eq_of_getElemQ hsc hlen
    have hgetp : scenes.get ⟨i - 1, by omega⟩ = prev := getElem_eq_of_getElemQ hprev (by omega)
    have hdiff : (zv : ℚ) / 100 - (zc : ℚ) / 100 = (((zv : ℤ) - (zc : ℤ) : ℤ) : ℚ) / 100 := by
      push_cast
      ring
    have hdur : max 0 ((zv : ℚ) / 100 - (zc : ℚ) / 100) =
        ((max 0 ((zv : ℤ) - (zc : ℤ)) : ℤ) : ℚ) / 100 := by
      rw [hdiff, max0_div100]
    have htf1 : Utils.toFixed2 (max 0 ((zv : ℚ) / 100 - (zc : ℚ) / 100)) =
        max 0 ((zv : ℚ) / 100 - (zc : ℚ) / 100) := by
      rw [hdur]
      exact toFixed2_int_hundredths _ (le_max_left _ _)
    have hsumz : (zs : ℚ) / 100 + max 0 ((zv : ℚ) / 100 - (zc : ℚ) / 100) =
        (((zs : ℤ) + max 0 ((zv : ℤ) - (zc : ℤ)) : ℤ) : ℚ) / 100 := by
      rw [hdur]
      push_cast
      ring
    have htf2 : Utils.toFixed2 ((zs : ℚ) / 100 + max 0 ((zv : ℚ) / 100 - (zc : ℚ) / 100)) =
        (zs : ℚ) / 100 + max 0 ((zv : ℚ) / 100 - (zc : ℚ) / 100) := by
      rw [hsumz]
      exact toFixed2_int_hundredths _ (by positivity)
    have hmain : SceneManager.handleClipStartEdit scenes i =
        SceneManager.recalcClipStarts (scenes.set (i - 1)
          { prev with
            length := some (max 0 ((zv : ℚ) / 100 - (zc : ℚ) / 100))
            endT := some ((zs : ℚ) / 100 + max 0 ((zv : ℚ) / 100 - (zc : ℚ) / 100)) }) := by
      unfold SceneManager.handleClipStartEdit
      rw [dif_neg hne]
      simp only [hget, hgetp, hscs, hpcs, hpst, vni_hundredths, htf1, htf2]
    refine ⟨hmain, ?_, ?_⟩
    · rw [hmain]
      have hget2 := recalcClipStarts_get (scenes.set (i - 1)
          { prev with
            length := some (max 0 ((zv : ℚ) / 100 - (zc : ℚ) / 100))
            endT := some ((zs : ℚ) / 100 + max 0 ((zv : ℚ) / 100 - (zc : ℚ) / 100)) })
        (i - 1) (by rw [List.length_set]; omega)
      have hq : (SceneManager.recalcClipStarts (scenes.set (i - 1) _))[i - 1]? =
          some ((SceneManager.recalcClipStarts (scenes.set (i - 1)
            { prev with
              length := some (max 0 ((zv : ℚ) / 100 - (zc : ℚ) / 100))
              endT := some ((zs : ℚ) / 100 + max 0 ((zv : ℚ) / 100 - (zc : ℚ) / 100)) })).get
            ⟨i - 1, by rw [recalcClipStarts_length, List.length_set]; omega⟩) :=
        List.getElem?_eq_getElem _
      refine ⟨_, hq, ?_⟩
      rw [hget2]
      have hset : (scenes.set (i - 1)
          { prev with
            length := some (max 0 ((zv : ℚ) / 100 - (zc : ℚ) / 100))
            endT := some ((zs : ℚ) / 100 + max 0 ((zv : ℚ) / 100 - (zc : ℚ) / 100)) }).get
          ⟨i - 1, by rw [List.length_set]; omega⟩ =
          { prev with
            length := some (max 0 ((zv : ℚ) / 100 - (zc : ℚ) / 100))
            endT := some ((zs : ℚ) / 100 + max 0 ((zv : ℚ) / 100 - (zc : ℚ) / 100)) } := by
        simp [List.get_eq_getElem, List.getElem_set]
      rw [hset]
      exact ⟨rfl, rfl, rfl⟩
    · rw [hmain]
      have hq : (SceneManager.recalcClipStarts (scenes.set (i - 1) _))[i]? =
          some ((SceneManager.recalcClipStarts (scenes.set (i - 1)
            { prev with
              length := some (max 0 ((zv : ℚ) / 100 - (zc : ℚ) / 100))
              endT := some ((zs : ℚ) / 100 + max 0 ((zv : ℚ) / 100 - (zc : ℚ) / 100)) })).get
            ⟨i, by rw [recalcClipStarts_length, List.length_set]; omega⟩) :=
        List.getElem?_eq_getElem _
      refine ⟨_, hq, ?_⟩
      rw [recalcClipStarts_get _ i (by rw [List.length_set]; omega)]
      have hset : (scenes.set (i - 1)
          { prev with
            length := some (max 0 ((zv : ℚ) / 100 - (zc : ℚ) / 100))
            endT := some ((zs : ℚ) / 100 + max 0 ((zv : ℚ) / 100 - (zc : ℚ) / 100)) }).get
          ⟨i, by rw [List.length_set]; omega⟩ = sc := by
        have hne2 : ¬(i - 1 = i) := by omega
        simp only [List.get_eq_getElem, List.getElem_set, if_neg hne2]
        simpa [List.get_eq_getElem] using hget
      rw [hset]
      exact ⟨rfl, rfl, rfl, rfl, rfl, rfl, rfl⟩

/-- Witness for C4: editing scene 1's Clip Start to 5.00 in the concrete
two-scene clip (previous scene keeps start 0 and gets length 5.00), and
the first scene's Clip Start edit being a no-op. -/
theorem claim_C4_witness :
    SceneManager.handleClipStartEdit SceneManager.witScenes 0 = SceneManager.witScenes ∧
    (∃ pr, (SceneManager.handleClipStartEdit SceneManager.witScenes 1)[0]? = some pr ∧
      pr.length = some 5 ∧ pr.start = some 0) := by
  have h2 := claim_C4_clipStart_edit.2 SceneManager.witScenes 1 500 0 0
    (SceneManager.witScenes.get ⟨1, by decide⟩) (SceneManager.witScenes.get ⟨0, by decide⟩)
    (by decide) (by decide) (by decide) (by decide) (by decide) (by decide) (by decide)
  obtain ⟨-, ⟨pr, hpr, hl, he, hs⟩, -⟩ := h2
  refine ⟨claim_C4_clipStart_edit.1 _, pr, hpr, ?_, ?_⟩
  · rw [hl]
    decide
  · rw [hs]
    decide

theorem cos_gt_one_sub_two_mul (s : ℝ) (h0 : 0 < s) (h1 : s < 1 / 2) :
    1 - 2 * s < Real.cos (Real.pi * s) := by
  have hcc := strictConcaveOn_cos_Icc
  have hx : (0 : ℝ) ∈ Set.Icc (-(Real.pi / 2)) (Real.pi / 2) :=
    ⟨neg_nonpos.mpr Real.pi_div_two_pos.le, Real.pi_div_two_pos.le⟩
  have hy : Real.pi / 2 ∈ Set.Icc (-(Real.pi / 2)) (Real.pi / 2) :=
    ⟨by linarith [Real.pi_div_two_pos], le_refl _⟩
  have hxy : (0 : ℝ) ≠ Real.pi / 2 := ne_of_lt Real.pi_div_two_pos
  have ha : 0 < 1 - 2 * s := by linarith
  have hb : 0 < 2 * s := by linarith
  have hab : (1 - 2 * s) + 2 * s = 1 := by ring
  have hineq := hcc.2 hx hy hxy ha hb hab
  simp only [smul_eq_mul, mul_zero, zero_add, Real.cos_zero, Real.cos_pi_div_two,
    mul_one] at hineq
  have harg : 2 * s * (Real.pi / 2) = Real.pi * s := by ring
  rw [harg] at hineq
  linarith

theorem easeX_closer_than_linX (a b d t : ℝ) (hd : 0 < d) (hab : a ≠ b)
    (ht0 : 0 < t) (ht : t < d / 2) :
    |PanExpr.easeX a b d t - a| < |PanExpr.linX a b d t - a| := by
  have hs0 : 0 < t / d := div_pos ht0 hd
  have hs1 : t / d < 1 / 2 := by
    rw [div_lt_iff hd]
    linarith
  have hkey := cos_gt_one_sub_two_mul (t / d) hs0 hs1
  have harg : Real.pi * t / d = Real.pi * (t / d) := by ring
  have hlt : (1 - Real.cos (Real.pi * t / d)) / 2 < t / d := by
    rw [harg]
    linarith
  have hcos_le : Real.cos (Real.pi * t / d) ≤ 1 := Real.cos_le_one _
  have h1 : PanExpr.easeX a b d t - a = (b - a) * ((1 - Real.cos (Real.pi * t / d)) / 2) := by
    unfold PanExpr.easeX
    ring
  have h2 : PanExpr.linX a b d t - a = (b - a) * (t / d) := by
    unfold PanExpr.linX
    ring
  rw [h1, h2, abs_mul, abs_mul]
  have hba : 0 < |b - a| := abs_pos.mpr (sub_ne_zero.mpr (Ne.symm hab))
  rw [abs_of_nonneg (by linarith : (0 : ℝ) ≤ (1 - Real.cos (Real.pi * t / d)) / 2),
    abs_of_pos hs0]
  exact mul_lt_mul_of_pos_left hlt hba

/-- C3 counterexample: the claim's "closer to startX than the linear
expression at every 0 < t < duration/2" fails, as stated, for a pan scene
whose end crop position equals its start position (`hCrop = hCropEnd = 50`
with `in_w = 1920`, `cropW = 607.5` gives `startX = endX = 656.25`,
`duration = 4`): at `t = 1` both expressions sit exactly at `startX`, so
neither is strictly closer. -/
theorem claim_C3_counterexample :
    ¬ (|PanExpr.easeX 656.25 656.25 4 1 - 656.25| < |PanExpr.linX 656.25 656.25 4 1 - 656.25|) := by
  have h1 : PanExpr.easeX 656.25 656.25 4 1 - 656.25 = 0 := by
    unfold PanExpr.easeX
    ring
  have h2 : PanExpr.linX 656.25 656.25 4 1 - 656.25 = 0 := by
    unfold PanExpr.linX
    ring
  rw [h1, h2]
  simp

/-- C3 (amended): for a pan-enabled Scene the generated crop-x expression
is the linear interpolation `startX+(endX-(startX))*(t/duration)` or the
cosine ease `startX+(endX-(startX))*(1-cos(PI*t/duration))/2` (shown on
the concrete fixture of the spec, `hCrop=20`, `hCropEnd=80`,
`duration=4.00`, `cropW=607.5`), with a constant `(in_w-cropW)*(hCrop/100)`
for non-pan Scenes; reading the expressions as functions of `t` with
nonzero duration: the linear one runs from `startX` at 0 to `endX` at
`duration` with the arithmetic midpoint at `duration/2`; the ease also
hits the midpoint at `duration/2`, and — provided `startX ≠ endX` — it is
strictly closer to `startX` than the linear expression at every
`0 < t < duration/2` (slow start). -/
theorem claim_C3_pan_interpolation :
    (∀ a b d : ℝ, d ≠ 0 →
      PanExpr.linX a b d 0 = a ∧ PanExpr.linX a b d d = b ∧
      PanExpr.linX a b d (d / 2) = (a + b) / 2 ∧ PanExpr.easeX a b d (d / 2) = (a + b) / 2) ∧
    (∀ a b d t : ℝ, 0 < d → a ≠ b → 0 < t → t < d / 2 →
      |PanExpr.easeX a b d t - a| < |PanExpr.linX a b d t - a|) ∧
    CommandGenerator.xExprOf (1215 / 2) CommandGenerator.panLinScene =
      "(in_w-607.5)*0.2+((in_w-607.5)*0.8-((in_w-607.5)*0.2))*(t/4.00)" ∧
    CommandGenerator.xExprOf (1215 / 2) CommandGenerator.panZoomScene =
      "(in_w-607.5)*0.2+((in_w-607.5)*0.8-((in_w-607.5)*0.2))*(1-cos(PI*t/4.00))/2" ∧
    CommandGenerator.xExprOf (1215 / 2) CommandGenerator.noPanScene = "(in_w-607.5)*0.2" := by
  refine ⟨?_, easeX_closer_than_linX, by decide, by decide, by decide⟩
  intro a b d hd
  refine ⟨?_, ?_, ?_, ?_⟩
  · unfold PanExpr.linX
    simp
  · unfold PanExpr.linX
    rw [div_self hd]
    ring
  · unfold PanExpr.linX
    have h : d / 2 / d = 1 / 2 := by
      field_simp
      ring
    rw [h]
    ring
  · unfold PanExpr.easeX
    have h : Real.pi * (d / 2) / d = Real.pi / 2 := by
      field_simp
      ring
    rw [h, Real.cos_pi_div_two]
    ring

/-- Witness for C3 at `startX = 0`, `endX = 1`, `duration = 4`, `t = 1`. -/
theorem claim_C3_witness :
    PanExpr.linX 0 1 4 0 = 0 ∧ PanExpr.linX 0 1 4 4 = 1 ∧
    PanExpr.linX 0 1 4 (4 / 2) = (0 + 1) / 2 ∧ PanExpr.easeX 0 1 4 (4 / 2) = (0 + 1) / 2 ∧
    |PanExpr.easeX 0 1 4 1 - 0| < |PanExpr.linX 0 1 4 1 - 0| := by
  have h1 := claim_C3_pan_interpolation.1 0 1 4 (by norm_num)
  have h2 := claim_C3_pan_interpolation.2.1 0 1 4 1 (by norm_num) (by norm_num) (by norm_num)
    (by norm_num)
  exact ⟨h1.1, h1.2.1, h1.2.2.1, h1.2.2.2, h2⟩

theorem strAppend_assoc (a b c : String) : a ++ b ++ c = a ++ (b ++ c) := by
  apply String.ext
  simp [String.data_append]

theorem strAppend_emptyR (a : String) : a ++ "" = a := by
  apply String.ext
  simp [String.data_append]

theorem foldl_strAppend_acc {α : Type} (g : α → String) (l : List α) :
    ∀ acc : String, ∃ r, l.foldl (fun a x => a ++ g x) acc = acc ++ r := by
  induction l with
  | nil =>
    intro acc
    exact ⟨"", (strAppend_emptyR acc).symm⟩
  | cons x xs ih =>
    intro acc
    obtain ⟨r, hr⟩ := ih (acc ++ g x)
    exact ⟨g x ++ r, by rw [List.foldl_cons, hr, strAppend_assoc]⟩

theorem foldl_strAppend_mem {α : Type} (g : α → String) (x : α) :
    ∀ (l : List α), x ∈ l → ∀ acc : String,
      ∃ p r, l.foldl (fun a y => a ++ g y) acc = p ++ g x ++ r := by
  intro l
  induction l with
  | nil =>
    intro h
    cases h
  | cons y ys ih =>
    intro hx acc
    rcases List.mem_cons.mp hx with rfl | hmem
    · obtain ⟨r, hr⟩ := foldl_strAppend_acc g ys (acc ++ g x)
      exact ⟨acc, r, by rw [List.foldl_cons, hr]⟩
    · exact ih hmem (acc ++ g y)

theorem mem_enum_of_lt {α : Type} (l : List α) (i : ℕ) (h : i < l.length) :
    (i, l.get ⟨i, h⟩) ∈ l.enum := by
  have hlen : i < (l.enum).length := by
    simpa [List.enum, List.enumFrom_length] using h
  have hg : (l.enum)[i] = (i, l.get ⟨i, h⟩) := by
    simp [List.enum, List.getElem_enumFrom, List.get_eq_getElem]
  have hm := List.getElem_mem hlen
  rwa [hg] at hm

theorem filters_acc (W H : ℚ) (oW oH : ℤ) (L : List (ℕ × CommandGenerator.SceneForm)) :
    ∀ acc : String, ∃ r,
      L.foldl (fun acc p => acc ++ CommandGenerator.videoUnit W H oW oH p.1 p.2 ++
        CommandGenerator.audioUnit p.1 p.2) acc = acc ++ r := by
  induction L with
  | nil =>
    intro acc
    exact ⟨"", (strAppend_emptyR acc).symm⟩
  | cons y ys ih =>
    intro acc
    obtain ⟨r, hr⟩ := ih (acc ++ CommandGenerator.videoUnit W H oW oH y.1 y.2 ++
      CommandGenerator.audioUnit y.1 y.2)
    refine ⟨CommandGenerator.videoUnit W H oW oH y.1 y.2 ++
      (CommandGenerator.audioUnit y.1 y.2 ++ r), ?_⟩
    rw [List.foldl_cons, hr]
    simp only [strAppend_assoc]

theorem filters_mem (W H : ℚ) (oW oH : ℤ) (x : ℕ × CommandGenerator.SceneForm) :
    ∀ L : List (ℕ × CommandGenerator.SceneForm), x ∈ L → ∀ acc : String,
      ∃ p r,
        L.foldl (fun acc p => acc ++ CommandGenerator.videoUnit W H oW oH p.1 p.2 ++
          CommandGenerator.audioUnit p.1 p.2) acc =
        p ++ CommandGenerator.videoUnit W H oW oH x.1 x.2 ++
          (CommandGenerator.audioUnit x.1 x.2 ++ r) := by
  intro L
  induction L with
  | nil =>
    intro h
    cases h
  | cons y ys ih =>
    intro hx acc
    rcases List.mem_cons.mp hx with rfl | hmem
    · obtain ⟨r, hr⟩ := filters_acc W H oW oH ys (acc ++
        CommandGenerator.videoUnit W H oW oH x.1 x.2 ++ CommandGenerator.audioUnit x.1 x.2)
      refine ⟨acc, r, ?_⟩
      rw [List.foldl_cons, hr]
      simp only [strAppend_assoc]
    · exact ih hmem _

set_option maxHeartbeats 1600000 in
/-- C6: with validated dimensions and at least one scene, the generated
command contains, for each scene index, the exact per-scene video unit
(trim, setpts, crop with the scene's x-expression, scale) and audio unit
(atrim, asetpts) tagged with that index, contains the concat filter
with n equal to the scene count and `v=1:a=1` mapped to `[v][a]`, selects
the libx264/aac codecs, and ends with the sanitized clip name (every
character outside `[A-Za-z0-9_-]` replaced by an underscore) plus `.mp4`;
a clip with zero scenes gets the placeholder text instead. -/
theorem claim_C6_command_shape
    (inputName inDim outDim clipName : String) (scenes : List CommandGenerator.SceneForm)
    (inW inH outW outH : ℤ)
    (hin : Utils.parseDimensions inDim = .ok (inW, inH))
    (hout : Utils.parseDimensions outDim = .ok (outW, outH)) :
    (scenes ≠ [] →
      ∃ cmd, CommandGenerator.updateCommand inputName inDim outDim clipName scenes = .ok cmd ∧
        (∀ i (hi : i < scenes.length),
          (∃ p r, cmd = p ++ CommandGenerator.videoUnit
              (CommandGenerator.cropWOf (inW : ℚ) (inH : ℚ) (outW : ℚ) (outH : ℚ))
              (CommandGenerator.cropHOf (inW : ℚ) (inH : ℚ) (outW : ℚ) (outH : ℚ))
              outW outH i (scenes.get ⟨i, hi⟩) ++ r) ∧
          (∃ p r, cmd = p ++ CommandGenerator.audioUnit i (scenes.get ⟨i, hi⟩) ++ r)) ∧
        (∃ p r, cmd = p ++ ("concat=n=" ++ toString scenes.length ++ ":v=1:a=1[v][a]") ++ r) ∧
        (∃ p r, cmd = p ++ " -c:v libx264 -c:a aac " ++ r) ∧
        (∃ p, cmd = p ++ (Utils.sanitizeFilename (if clipName = "" then "output" else clipName)
          ++ ".mp4"))) ∧
    (CommandGenerator.updateCommand inputName inDim outDim clipName [] =
      .ok "Add a scene to generate command...") ∧
    (∀ (s : String) (ch : Char), ch ∈ (Utils.sanitizeFilename s).data →
      Utils.isFilenameSafe ch = true) := by
  refine ⟨?_, ?_, ?_⟩
  · intro hne
    have hpos : 0 < scenes.length := List.length_pos.mpr hne
    refine ⟨"ffmpeg -i " ++ inputName ++ " -filter_complex \\\n\"" ++
      (scenes.enum.foldl (fun acc p => acc ++ CommandGenerator.videoUnit
        (CommandGenerator.cropWOf (inW : ℚ) (inH : ℚ) (outW : ℚ) (outH : ℚ))
        (CommandGenerator.cropHOf (inW : ℚ) (inH : ℚ) (outW : ℚ) (outH : ℚ))
        outW outH p.1 p.2 ++ CommandGenerator.audioUnit p.1 p.2) "") ++
      (scenes.enum.foldl (fun acc p => acc ++ CommandGenerator.concatPiece p.1) "") ++
      "concat=n=" ++ toString scenes.length ++
      ":v=1:a=1[v][a]\" \\\n-map \"[v]\" -map \"[a]\"" ++ " -c:v libx264 -c:a aac " ++
      Utils.sanitizeFilename (if clipName = "" then "output" else clipName) ++ ".mp4",
      ?_, ?_, ?_, ?_, ?_⟩
    · unfold CommandGenerator.updateCommand
      rw [hin, hout]
      show (if scenes.length > 0 then _ else _) = _
      rw [if_pos hpos]
    · intro i hi
      obtain ⟨p, r, hf⟩ := filters_mem
        (CommandGenerator.cropWOf (inW : ℚ) (inH : ℚ) (outW : ℚ) (outH : ℚ))
        (CommandGenerator.cropHOf (inW : ℚ) (inH : ℚ) (outW : ℚ) (outH : ℚ))
        outW outH (i, scenes.get ⟨i, hi⟩) scenes.enum (mem_enum_of_lt scenes i hi) ""
      dsimp only at hf
      constructor
      · refine ⟨"ffmpeg -i " ++ inputName ++ " -filter_complex \\\n\"" ++ p,
          CommandGenerator.audioUnit i (scenes.get ⟨i, hi⟩) ++ r ++
          (scenes.enum.foldl (fun acc p => acc ++ CommandGenerator.concatPiece p.1) "") ++
          "concat=n=" ++ toString scenes.length ++
          ":v=1:a=1[v][a]\" \\\n-map \"[v]\" -map \"[a]\"" ++ " -c:v libx264 -c:a aac " ++
          Utils.sanitizeFilename (if clipName = "" then "output" else clipName) ++ ".mp4", ?_⟩
        rw [hf]
        simp only [strAppend_assoc]
      · refine ⟨"ffmpeg -i " ++ inputName ++ " -filter_complex \\\n\"" ++ p ++
          (CommandGenerator.videoUnit (CommandGenerator.cropWOf (inW : ℚ) (inH : ℚ) (outW : ℚ) (outH : ℚ)) (CommandGenerator.cropHOf (inW : ℚ) (inH : ℚ) (outW : ℚ) (outH : ℚ)) outW outH i (scenes.get ⟨i, hi⟩)),
          r ++
          (scenes.enum.foldl (fun acc p => acc ++ CommandGenerator.concatPiece p.1) "") ++
          "concat=n=" ++ toString scenes.length ++
          ":v=1:a=1[v][a]\" \\\n-map \"[v]\" -map \"[a]\"" ++ " -c:v libx264 -c:a aac " ++
          Utils.sanitizeFilename (if clipName = "" then "output" else clipName) ++ ".mp4", ?_⟩
        rw [hf]
        simp only [strAppend_assoc]
    · have hsplit : (":v=1:a=1[v][a]\" \\\n-map \"[v]\" -map \"[a]\"" : String) =
          ":v=1:a=1[v][a]" ++ "\" \\\n-map \"[v]\" -map \"[a]\"" := by decide
      refine ⟨"ffmpeg -i " ++ inputName ++ " -filter_complex \\\n\"" ++
        (scenes.enum.foldl (fun acc p => acc ++ CommandGenerator.videoUnit
        (CommandGenerator.cropWOf (inW : ℚ) (inH : ℚ) (outW : ℚ) (outH : ℚ))
        (CommandGenerator.cropHOf (inW : ℚ) (inH : ℚ) (outW : ℚ) (outH : ℚ))
        outW outH p.1 p.2 ++ CommandGenerator.audioUnit p.1 p.2) "") ++
        (scenes.enum.foldl (fun acc p => acc ++ CommandGenerator.concatPiece p.1) ""),
        "\" \\\n-map \"[v]\" -map \"[a]\"" ++ " -c:v libx264 -c:a aac " ++
        Utils.sanitizeFilename (if clipName = "" then "output" else clipName) ++ ".mp4", ?_⟩
      conv_lhs => rw [hsplit]
      simp only [strAppend_assoc]
    · refine ⟨"ffmpeg -i " ++ inputName ++ " -filter_complex \\\n\"" ++
        (scenes.enum.foldl (fun acc p => acc ++ CommandGenerator.videoUnit
        (CommandGenerator.cropWOf (inW : ℚ) (inH : ℚ) (outW : ℚ) (outH : ℚ))
        (CommandGenerator.cropHOf (inW : ℚ) (inH : ℚ) (outW : ℚ) (outH : ℚ))
        outW outH p.1 p.2 ++ CommandGenerator.audioUnit p.1 p.2) "") ++
        (scenes.enum.foldl (fun acc p => acc ++ CommandGenerator.concatPiece p.1) "") ++
        "concat=n=" ++ toString scenes.length ++
        ":v=1:a=1[v][a]\" \\\n-map \"[v]\" -map \"[a]\"",
        Utils.sanitizeFilename (if clipName = "" then "output" else clipName) ++ ".mp4", ?_⟩
      simp only [strAppend_assoc]
    · refine ⟨"ffmpeg -i " ++ inputName ++ " -filter_complex \\\n\"" ++
        (scenes.enum.foldl (fun acc p => acc ++ CommandGenerator.videoUnit
        (CommandGenerator.cropWOf (inW : ℚ) (inH : ℚ) (outW : ℚ) (outH : ℚ))
        (CommandGenerator.cropHOf (inW : ℚ) (inH : ℚ) (outW : ℚ) (outH : ℚ))
        outW outH p.1 p.2 ++ CommandGenerator.audioUnit p.1 p.2) "") ++
        (scenes.enum.foldl (fun acc p => acc ++ CommandGenerator.concatPiece p.1) "") ++
        "concat=n=" ++ toString scenes.length ++
        ":v=1:a=1[v][a]\" \\\n-map \"[v]\" -map \"[a]\"" ++ " -c:v libx264 -c:a aac ", ?_⟩
      simp only [strAppend_assoc]
  · unfold CommandGenerator.updateCommand
    rw [hin, hout]
    rfl
  · intro s ch h
    simp only [Utils.sanitizeFilename, List.mem_map] at h
    obtain ⟨c, hc, rfl⟩ := h
    by_cases hs : Utils.isFilenameSafe c
    · simpa [hs] using hs
    · simp [hs]
      decide

/-- Witness for C6: one pan scene, 1920x1080 input, 720x1280 output, a
clip name needing sanitization. -/
theorem claim_C6_witness :
    ∃ cmd, CommandGenerator.updateCommand "input.mkv" "1920x1080" "720x1280" "My Clip!"
        [CommandGenerator.panLinScene] = .ok cmd ∧
      (∃ p r, cmd = p ++ CommandGenerator.videoUnit
        (CommandGenerator.cropWOf ((1920 : ℤ) : ℚ) ((1080 : ℤ) : ℚ) ((720 : ℤ) : ℚ)
          ((1280 : ℤ) : ℚ))
        (CommandGenerator.cropHOf ((1920 : ℤ) : ℚ) ((1080 : ℤ) : ℚ) ((720 : ℤ) : ℚ)
          ((1280 : ℤ) : ℚ))
        720 1280 0 ([CommandGenerator.panLinScene].get ⟨0, by decide⟩) ++ r) ∧
      (∃ p, cmd = p ++ (Utils.sanitizeFilename "My Clip!" ++ ".mp4")) := by
  have h := claim_C6_command_shape "input.mkv" "1920x1080" "720x1280" "My Clip!"
    [CommandGenerator.panLinScene] 1920 1080 720 1280 rfl rfl
  obtain ⟨cmd, hcmd, hunits, hconcat, hcodec, hsuffix⟩ := h.1 (by simp)
  exact ⟨cmd, hcmd, (hunits 0 (by decide)).1, hsuffix⟩

set_option maxRecDepth 8000 in
/-- C8 counterexample: the claim's "on load no project state is changed"
and "the surfaced error message is enriched with the offending Scene's
index and Clip's name" both fail as stated. Loading a file with valid
dimensions but an invalid scene leaves an error yet mutates the global
settings (they are written before the clips array is validated), and the
save error message carries only the clip name, no scene index (the digit
`1` for scene 1 appears nowhere in it). -/
theorem claim_C8_counterexample :
    ((ProjectManager.processProjectFile ProjectManager.c8state ProjectManager.c8raw).2.isSome =
      true ∧
     (ProjectManager.processProjectFile ProjectManager.c8state ProjectManager.c8raw).1 ≠
      ProjectManager.c8state ∧
     (ProjectManager.processProjectFile ProjectManager.c8state ProjectManager.c8raw).1.inDim =
      "1920x1080") ∧
    (ProjectManager.saveProject "in.mkv" "1920x1080" "720x1280" ProjectManager.c8saveClips =
      .error "Error in clip \"Intro\": Invalid scene: end time (3) must be greater than start time (5)" ∧
     ¬ List.IsInfix "Scene".data
       "Error in clip \"Intro\": Invalid scene: end time (3) must be greater than start time (5)".data ∧
     ¬ List.IsInfix "1".data
       "Error in clip \"Intro\": Invalid scene: end time (3) must be greater than start time (5)".data) := by
  refine ⟨⟨by decide, by decide, by decide⟩, by rfl, by decide, by decide⟩

/-- On any load failure (`processProjectFile` surfaces an error) the clip
tabs are untouched: `loadTabsFromData` runs only after every clip and
scene validated. -/
theorem processProjectFile_error_clips (st : ProjectManager.AppState)
    (d : ProjectManager.RawProject) :
    ((ProjectManager.processProjectFile st d).2).isSome = true →
    ((ProjectManager.processProjectFile st d).1).clips = st.clips := by
  simp only [ProjectManager.processProjectFile]
  cases h1 : ErrorHandler.validateDimensions (ProjectManager.jsStrOr d.inDim "1280x640") with
  | error m => intro _; rfl
  | ok w =>
    cases h2 : ErrorHandler.validateDimensions (ProjectManager.jsStrOr d.outDim "720x1280") with
    | error m => intro _; rfl
    | ok z =>
      cases hc : d.clips with
      | none => intro _; rfl
      | some clipList =>
        dsimp only
        by_cases he : clipList.isEmpty
        · rw [if_pos he]; intro _; rfl
        · rw [if_neg he]
          cases h3 : ProjectManager.validateLoadClips 0 clipList with
          | error m => intro _; rfl
          | ok u => intro hfalse; simp at hfalse

/-- Once the two dimension checks pass, `processProjectFile` commits the
global settings (input name and both dimension fields) to the loaded
values, whether or not the clips array later validates. -/
theorem processProjectFile_globals (st : ProjectManager.AppState)
    (d : ProjectManager.RawProject) (w z : ℤ × ℤ)
    (hw : ErrorHandler.validateDimensions (ProjectManager.jsStrOr d.inDim "1280x640") = .ok w)
    (hz : ErrorHandler.validateDimensions (ProjectManager.jsStrOr d.outDim "720x1280") = .ok z) :
    ((ProjectManager.processProjectFile st d).1).inputName =
      ProjectManager.jsStrOr d.inputName "input.mkv" ∧
    ((ProjectManager.processProjectFile st d).1).inDim =
      ProjectManager.jsStrOr d.inDim "1280x640" ∧
    ((ProjectManager.processProjectFile st d).1).outDim =
      ProjectManager.jsStrOr d.outDim "720x1280" := by
  simp only [ProjectManager.processProjectFile]
  rw [hw, hz]
  cases hc : d.clips with
  | none => exact ⟨rfl, rfl, rfl⟩
  | some clipList =>
    dsimp only
    by_cases he : clipList.isEmpty
    · rw [if_pos he]; exact ⟨rfl, rfl, rfl⟩
    · rw [if_neg he]
      cases h3 : ProjectManager.validateLoadClips 0 clipList with
      | error m => exact ⟨rfl, rfl, rfl⟩
      | ok u => exact ⟨rfl, rfl, rfl⟩

/-- A scene accepted by the save validation has `end > start`. -/
theorem validateSceneForSave_lt (nm : String) (sc : ProjectManager.RawScene)
    (v : ProjectManager.SavedScene)
    (h : ProjectManager.validateSceneForSave nm sc = .ok v) : v.start < v.endT := by
  simp only [ProjectManager.validateSceneForSave] at h
  cases h1 : ErrorHandler.validateNumericInput sc.start "Start time" 0 none false true with
  | error m => rw [h1] at h; simp at h
  | ok s =>
    rw [h1] at h
    cases h2 : ErrorHandler.validateNumericInput sc.endT "End time" 0 none false true with
    | error m => rw [h2] at h; simp at h
    | ok e =>
      rw [h2] at h
      cases h3 : ErrorHandler.validateNumericInput sc.hCrop "Horizontal crop" 0 (some 100)
          false true with
      | error m => rw [h3] at h; simp at h
      | ok hc =>
        rw [h3] at h
        cases h4 : ErrorHandler.validateNumericInput sc.hCropEnd "End horizontal crop" 0
            (some 100) false true with
        | error m => rw [h4] at h; simp at h
        | ok hce =>
          rw [h4] at h
          dsimp only at h
          by_cases hle : e ≤ s
          · rw [if_pos hle] at h; simp at h
          · rw [if_neg hle] at h
            simp only [Except.ok.injEq] at h
            subst h
            exact not_le.mp hle

/-- Every scene in a clip accepted by the save validation has
`end > start`. -/
theorem validateScenesForSave_lt (nm : String) :
    ∀ (l : List ProjectManager.RawScene) (vs : List ProjectManager.SavedScene),
      ProjectManager.validateScenesForSave nm l = .ok vs →
      ∀ v ∈ vs, v.start < v.endT := by
  intro l
  induction l with
  | nil =>
    intro vs h v hv
    simp only [ProjectManager.validateScenesForSave, Except.ok.injEq] at h
    subst h
    simp at hv
  | cons sc rest ih =>
    intro vs h v hv
    simp only [ProjectManager.validateScenesForSave] at h
    cases h1 : ProjectManager.validateSceneForSave nm sc with
    | error m => rw [h1] at h; simp at h
    | ok v0 =>
      rw [h1] at h
      cases h2 : ProjectManager.validateScenesForSave nm rest with
      | error m => rw [h2] at h; simp at h
      | ok vs0 =>
        rw [h2] at h
        dsimp only at h
        simp only [Except.ok.injEq] at h
        subst h
        rcases List.mem_cons.mp hv with rfl | hm
        · exact validateSceneForSave_lt nm sc v h1
        · exact ih vs0 h2 v hm

/-- Every clip in a clip list accepted by the save validation is nonempty
and all its scenes have `end > start`. -/
theorem validateClipsForSave_ok :
    ∀ (L : List (String × List ProjectManager.RawScene))
      (cs : List (String × List ProjectManager.SavedScene)),
      ProjectManager.validateClipsForSave L = .ok cs →
      ∀ c ∈ cs, c.2 ≠ [] ∧ ∀ v ∈ c.2, v.start < v.endT := by
  intro L
  induction L with
  | nil =>
    intro cs h c hc
    simp only [ProjectManager.validateClipsForSave, Except.ok.injEq] at h
    subst h
    simp at hc
  | cons p rest ih =>
    obtain ⟨nm, scs⟩ := p
    intro cs h c hc
    simp only [ProjectManager.validateClipsForSave] at h
    cases h1 : ProjectManager.validateScenesForSave nm scs with
    | error m => rw [h1] at h; simp at h
    | ok vs =>
      rw [h1] at h
      dsimp only at h
      by_cases he : vs.isEmpty
      · rw [if_pos he] at h; simp at h
      · rw [if_neg he] at h
        cases h2 : ProjectManager.validateClipsForSave rest with
        | error m => rw [h2] at h; simp at h
        | ok others =>
          rw [h2] at h
          dsimp only at h
          simp only [Except.ok.injEq] at h
          subst h
          rcases List.mem_cons.mp hc with rfl | hm
          · refine ⟨fun hnil => he ?_, fun v hv => validateScenesForSave_lt nm scs vs h1 v hv⟩
            simp only at hnil
            simp [hnil]
          · exact ih others h2 c hm

/-- A save that produces a file validated every clip and scene: each
saved clip is nonempty and each saved scene has `end > start`. -/
theorem saveProject_validated (inputName inDim outDim : String)
    (clips : List (String × List ProjectManager.RawScene))
    (data : ProjectManager.SaveData)
    (h : ProjectManager.saveProject inputName inDim outDim clips = .ok data) :
    ∀ c ∈ data.clips, c.2 ≠ [] ∧ ∀ v ∈ c.2, v.start < v.endT := by
  simp only [ProjectManager.saveProject] at h
  by_cases ht : Utils.trimJS inputName.data = []
  · rw [if_pos ht] at h; simp at h
  · rw [if_neg ht] at h
    cases h1 : ErrorHandler.validateDimensions inDim with
    | error m => rw [h1] at h; simp at h
    | ok w =>
      rw [h1] at h
      cases h2 : ErrorHandler.validateDimensions outDim with
      | error m => rw [h2] at h; simp at h
      | ok z =>
        rw [h2] at h
        dsimp only at h
        by_cases he : clips.isEmpty
        · rw [if_pos he] at h; simp at h
        · rw [if_neg he] at h
          cases h3 : ProjectManager.validateClipsForSave clips with
          | error m => rw [h3] at h; simp at h
          | ok cs =>
            rw [h3] at h
            dsimp only at h
            simp only [Except.ok.injEq] at h
            subst h
            exact validateClipsForSave_ok clips cs h3

set_option maxRecDepth 8000 in
/-- C8 (amended): validation with abort-on-first-failure, with two
corrections forced by the counterexample. On save, a produced file means
every clip was nonempty and every saved scene passed validation with
`end > start`, and the error message carries the offending clip's name
(only: no scene index, see the counterexample). On load, the clip tabs
are replaced only when every clip and scene validated — on failure they
are untouched — but there is no full no-partial-commit: the global
settings are already committed to the loaded values once the dimension
checks pass, even when clip validation then fails; the load error message
is enriched with both the scene's 1-based index and the clip's name. -/
theorem claim_C8_save_load_validation :
    (∀ st d, ((ProjectManager.processProjectFile st d).2).isSome = true →
        ((ProjectManager.processProjectFile st d).1).clips = st.clips) ∧
    (∀ st d w z,
        ErrorHandler.validateDimensions (ProjectManager.jsStrOr d.inDim "1280x640") = .ok w →
        ErrorHandler.validateDimensions (ProjectManager.jsStrOr d.outDim "720x1280") = .ok z →
        ((ProjectManager.processProjectFile st d).1).inDim =
          ProjectManager.jsStrOr d.inDim "1280x640") ∧
    (∀ inputName inDim outDim clips data,
        ProjectManager.saveProject inputName inDim outDim clips = .ok data →
        ∀ c ∈ data.clips, c.2 ≠ [] ∧ ∀ v ∈ c.2, v.start < v.endT) ∧
    ((ProjectManager.processProjectFile ProjectManager.c8state ProjectManager.c8raw).2 =
      some "Failed to load project: Scene 1 in clip \"Intro\": End time must be greater than start time") := by
  refine ⟨processProjectFile_error_clips, ?_, ?_, by decide⟩
  · intro st d w z hw hz
    exact (processProjectFile_globals st d w z hw hz).2.1
  · intro inputName inDim outDim clips data h
    exact saveProject_validated inputName inDim outDim clips data h

/-- Witness for C8: the amended theorem applied at the fixtures — the
failed load of `c8raw` leaves `c8state`'s clips untouched, and a save of
one valid clip yields a scene with `end > start`. -/
theorem claim_C8_witness :
    ((ProjectManager.processProjectFile ProjectManager.c8state ProjectManager.c8raw).1).clips =
      ProjectManager.c8state.clips ∧
    (ProjectManager.SavedScene.mk 0 5 50 false 50 "linear").start <
      (ProjectManager.SavedScene.mk 0 5 50 false 50 "linear").endT :=
  ⟨claim_C8_save_load_validation.1 ProjectManager.c8state ProjectManager.c8raw (by decide),
   ((claim_C8_save_load_validation.2.2.1 "in.mkv" "1920x1080" "720x1280"
       [("Intro", [ProjectManager.okScene])]
       (ProjectManager.SaveData.mk "in.mkv" "1920x1080" "720x1280"
         [("Intro", [ProjectManager.SavedScene.mk 0 5 50 false 50 "linear"])])
       (by rfl))
     ("Intro", [ProjectManager.SavedScene.mk 0 5 50 false 50 "linear"])
     (by simp)).2
     (ProjectManager.SavedScene.mk 0 5 50 false 50 "linear") (by simp)⟩

/-- C9 counterexample: "the field's prior valid derived values are
retained, and the invalid value is never silently coerced into a value
used by downstream computation" fails. Clearing the first scene's Length
field (an invalid, empty value) leaves the edited field rejected, but
`recalcClipStarts` immediately re-reads the field through
`validateNumericInput`, coerces the empty value to 0, and overwrites the
second scene's previously valid Clip Start 5 with 0. -/
theorem claim_C9_counterexample :
    (SceneManager.c9before.map SceneManager.Scene.clipStart = [some 0, some 5]) ∧
    ((SceneManager.editLengthField SceneManager.c9before 0 none).map
        SceneManager.Scene.clipStart = [some 0, some 0]) := by
  exact ⟨by decide, by decide⟩

/-- C9 (amended): an invalid Length edit is rejected at the field — the
write-back is skipped (the field keeps the typed value, marked invalid)
and the scene's own derived End field is not touched — but downstream
computation does not retain prior derived values: `recalcClipStarts` (and
continuity checking) re-read every length through `validateNumericInput`,
which silently coerces an empty or invalid field to its minimum 0, as the
concrete recomputation of `c9before`'s second Clip Start to 0 shows. -/
theorem claim_C9_field_rejection_and_coercion :
    (∀ (sc : SceneManager.Scene) (v : Option ℚ),
        InputValidator.durationVal v = none →
        (SceneManager.updateFromLength { sc with length := v }).endT = sc.endT ∧
        (SceneManager.updateFromLength { sc with length := v }).length = v) ∧
    (∀ sc : SceneManager.Scene, sc.length = none → SceneManager.vniLen sc = 0) ∧
    ((SceneManager.editLengthField SceneManager.c9before 0 none).map
        SceneManager.Scene.clipStart = [some 0, some 0]) := by
  refine ⟨?_, ?_, by decide⟩
  · intro sc v hv
    simp only [SceneManager.updateFromLength, hv]
    cases h : InputValidator.timeVal sc.start <;>
      simp [h, InputValidator.writeBack]
  · intro sc h
    simp [SceneManager.vniLen, Utils.vni, Utils.validateNumericInput, h]

/-- Witness for C9: the amended theorem applied at a concrete scene — an
emptied Length field leaves the End field at 5, and an empty length reads
as 0 for the clip-start recomputation. -/
theorem claim_C9_witness :
    (SceneManager.updateFromLength
        { SceneManager.fixtureScene (some 0) (some 5) (some 5) with length := none }).endT =
      (SceneManager.fixtureScene (some 0) (some 5) (some 5)).endT ∧
    SceneManager.vniLen (SceneManager.fixtureScene (some 0) (some 5) none) = 0 :=
  ⟨(claim_C9_field_rejection_and_coercion.1
      (SceneManager.fixtureScene (some 0) (some 5) (some 5)) none (by decide)).1,
   claim_C9_field_rejection_and_coercion.2.1
      (SceneManager.fixtureScene (some 0) (some 5) none) (by rfl)⟩
